import Mathlib

set_option maxHeartbeats 1600000

namespace OCA

/-- JS strings are modelled as lists of characters, so that every string
operation used by the analysis module is structurally recursive and
computable by the kernel. -/
abbrev Str := List Char

/-- Shorthand turning a Lean string literal into the character-list model. -/
def str (s : String) : Str := s.data

/-- Lexicographic code-unit comparison, the order JS uses for the string
comparison operators and (on the pure-ASCII month keys of this module)
for localeCompare. -/
def strLtB : Str → Str → Bool
  | [], [] => false
  | [], _ :: _ => true
  | _ :: _, [] => false
  | a :: as, b :: bs => if a < b then true else if b < a then false else strLtB as bs

/-- Non-strict string comparison: a is less-or-equal b iff b is not below a. -/
def strLeB (a b : Str) : Bool := !(strLtB b a)

/-- Embedding of JS String.prototype.toLowerCase (the module only
lower-cases ASCII descriptions and category names). -/
def lowerStr (s : Str) : Str := s.map Char.toLower

/-- Embedding of JS String.prototype.startsWith. -/
def startsWithB : Str → Str → Bool
  | _, [] => true
  | [], _ :: _ => false
  | a :: as, b :: bs => a == b && startsWithB as bs

/-- Embedding of JS String.prototype.includes. -/
def containsB : Str → Str → Bool
  | [], pat => pat == ([] : Str)
  | c :: rest, pat => startsWithB (c :: rest) pat || containsB rest pat

/-- Embedding of JS truthiness for nullable string fields: null and the
empty string are falsy. -/
def jsTruthy : Option Str → Bool
  | none => false
  | some s => !(s == ([] : Str))

/-- Embedding of the JS idiom a || b on strings (the empty string is falsy). -/
def jsStrOr (a b : Str) : Str := if a = [] then b else a

/-- Digit-string parser underlying the Number() coercion in monthsBetween. -/
def parseDigits (s : Str) : Option ℕ :=
  s.foldl
    (fun acc c =>
      match acc with
      | none => none
      | some n => if c.isDigit then some (n * 10 + (c.toNat - 48)) else none)
    (some 0)

/-- Embedding of Number() on the strings monthsBetween feeds it: digit
strings parse to their value and the empty string to 0, as in JS; the NaN
produced on other inputs (never reached on well-formed month keys) is
modelled as 0. -/
def jsNumber (s : Str) : ℤ := ((parseDigits s).getD 0 : ℕ)

/-- Embedding of JS String.prototype.split on a single-character separator. -/
def splitOnChar (sep : Char) : Str → List Str
  | [] => [[]]
  | c :: rest =>
    if c = sep then [] :: splitOnChar sep rest
    else
      match splitOnChar sep rest with
      | [] => [[c]]
      | s :: ss => (c :: s) :: ss

/-- Embedding of JS Math.round, which rounds ties toward positive infinity. -/
def jsRound (x : ℚ) : ℤ := ⌊x + 1 / 2⌋

/-- The Math.round(x * 100) / 100 idiom the module applies to every
monetary output. -/
def round2 (x : ℚ) : ℚ := (jsRound (x * 100) : ℚ) / 100

/-- Embedding of JS Array.prototype.slice with a negative start index,
as in monthlyData.slice(-monthsToAverage): the last k elements, the whole
array when k is 0 (slice(-0) is slice(0)) or exceeds the length. -/
def jsSliceLast {α : Type} (l : List α) (k : ℕ) : List α :=
  if k = 0 then l else l.drop (l.length - k)

/-- The Credit/Debit direction enum of the transaction schema. -/
inductive CreditDebit where
  | CREDIT
  | DEBIT
deriving DecidableEq

/-- The transaction record fields read by the analysis module, with the
types the content-collection schema (src/content/config.ts) guarantees:
strings, nullable strings, the direction enum, and the coerced numeric
amount modelled as an exact rational. -/
structure Transaction where
  effectiveDateTime : Str
  description : Str
  creditDebit : CreditDebit
  kind : Str
  amountSingleColumn : ℚ
  isReverse : Option Str
  isReversed : Option Str
  reverseTransactionId : Option Str
  oppositeAccountHandle : Str
  oppositeAccountName : Str
  accountingCategoryName : Option Str
deriving DecidableEq

/-- Port of isReversedOrReverse (analysis.ts lines 53-55): an Is Reverse or
Is Reversed flag equal to the string true, or a truthy (non-null,
non-empty) Reverse Transaction ID. -/
def isReversedOrReverse (tx : Transaction) : Bool :=
  tx.isReverse == some (str "true") || tx.isReversed == some (str "true") ||
    jsTruthy tx.reverseTransactionId

/-- The input with every reversal-marked transaction removed; this is the
set of transactions the shared filter keeps. -/
def removeReversed (txs : List Transaction) : List Transaction :=
  txs.filter fun tx => !(isReversedOrReverse tx)

/-- Port of getYearMonth (analysis.ts lines 48-51): for the ISO
timestamps of the dataset the year and zero-padded month of the Date are
the first four characters and the sixth and seventh characters; the
timezone dependence of JS Date parsing is not modelled beyond this. -/
def getYearMonth (dateString : Str) : Str :=
  dateString.take 4 ++ '-' :: (dateString.drop 5).take 2

/-- Association-list model of a JS Map with string keys: map.get. -/
def lookupA {α : Type} : List (Str × α) → Str → Option α
  | [], _ => none
  | (k, v) :: rest, key => if k = key then some v else lookupA rest key

/-- Association-list model of a JS Map with string keys: map.set replaces
an existing key in place and appends a new key, preserving insertion
order as a JS Map does. -/
def setA {α : Type} : List (Str × α) → Str → α → List (Str × α)
  | [], key, v => [(key, v)]
  | (k, w) :: rest, key, v =>
    if k = key then (key, v) :: rest else (k, w) :: setA rest key v

/-- The counterparty fallback chain used across the module: Opposite
Account Name, else Opposite Account Handle, else the literal Unknown. -/
def counterpartyOf (tx : Transaction) : Str :=
  jsStrOr tx.oppositeAccountName (jsStrOr tx.oppositeAccountHandle (str "Unknown"))

/-- Accumulator entry of the monthly map: running income and expenses. -/
structure MonthAcc where
  income : ℚ
  expenses : ℚ
deriving DecidableEq

/-- Row of the monthly summary report. -/
structure MonthlyData where
  month : Str
  income : ℚ
  expenses : ℚ
  net : ℚ
deriving DecidableEq

/-- Loop body of calculateMonthlyData (analysis.ts lines 60-73). -/
def monthStep (acc : List (Str × MonthAcc)) (tx : Transaction) : List (Str × MonthAcc) :=
  if isReversedOrReverse tx then acc
  else
    let month := getYearMonth tx.effectiveDateTime
    let current := (lookupA acc month).getD ⟨0, 0⟩
    let updated :=
      if tx.creditDebit = CreditDebit.CREDIT then
        { current with income := current.income + tx.amountSingleColumn }
      else
        { current with expenses := current.expenses + |tx.amountSingleColumn| }
    setA acc month updated

/-- Ascending month-key order used by the monthly summary sort. -/
def mdLe (a b : MonthlyData) : Prop := strLeB a.month b.month = true

instance : DecidableRel mdLe := fun a b => by unfold mdLe; infer_instance

/-- Port of calculateMonthlyData (analysis.ts lines 57-83). -/
def calculateMonthlyData (transactions : List Transaction) : List MonthlyData :=
  let monthlyMap := transactions.foldl monthStep []
  List.insertionSort mdLe <| monthlyMap.map fun p =>
    { month := p.1, income := round2 p.2.income, expenses := round2 p.2.expenses,
      net := round2 (p.2.income - p.2.expenses) }

/-- Accumulator entry of the per-key breakdown maps: amount and count. -/
structure AmountCount where
  amount : ℚ
  count : ℕ
deriving DecidableEq

/-- Row of the source/category breakdown reports. -/
structure SourceBreakdown where
  source : Str
  amount : ℚ
  count : ℕ
deriving DecidableEq

/-- Row of the per-recipient expense breakdown report. -/
structure ExpenseBreakdown where
  recipient : Str
  amount : ℚ
  count : ℕ
deriving DecidableEq

/-- Descending-amount order used by the breakdown sorts. -/
def sbDesc (a b : SourceBreakdown) : Prop := b.amount ≤ a.amount

instance : DecidableRel sbDesc := fun a b => by unfold sbDesc; infer_instance

/-- Descending-amount order for expense breakdown rows. -/
def ebDesc (a b : ExpenseBreakdown) : Prop := b.amount ≤ a.amount

instance : DecidableRel ebDesc := fun a b => by unfold ebDesc; infer_instance

/-- The materialization idiom shared by the breakdown aggregators
(analysis.ts lines 99-105, 169-175 and 202-209): round each accumulated
amount to 2 decimals and sort descending by amount. -/
def toSourceBreakdown (m : List (Str × AmountCount)) : List SourceBreakdown :=
  List.insertionSort sbDesc <| m.map fun p =>
    { source := p.1, amount := round2 p.2.amount, count := p.2.count }

/-- Loop body of analyzeIncomeSources (analysis.ts lines 88-97). -/
def incomeSourcesStep (acc : List (Str × AmountCount)) (tx : Transaction) :
    List (Str × AmountCount) :=
  if isReversedOrReverse tx then acc
  else if ¬(tx.creditDebit = CreditDebit.CREDIT) then acc
  else
    let source := counterpartyOf tx
    let current := (lookupA acc source).getD ⟨0, 0⟩
    setA acc source ⟨current.amount + tx.amountSingleColumn, current.count + 1⟩

/-- Port of analyzeIncomeSources (analysis.ts lines 85-106). -/
def analyzeIncomeSources (transactions : List Transaction) : List SourceBreakdown :=
  toSourceBreakdown (transactions.foldl incomeSourcesStep [])

/-- Loop body of analyzeExpenses (analysis.ts lines 111-120). -/
def expensesStep (acc : List (Str × AmountCount)) (tx : Transaction) :
    List (Str × AmountCount) :=
  if isReversedOrReverse tx then acc
  else if ¬(tx.creditDebit = CreditDebit.DEBIT) then acc
  else
    let recipient := counterpartyOf tx
    let current := (lookupA acc recipient).getD ⟨0, 0⟩
    setA acc recipient ⟨current.amount + |tx.amountSingleColumn|, current.count + 1⟩

/-- Port of analyzeExpenses (analysis.ts lines 108-129). -/
def analyzeExpenses (transactions : List Transaction) : List ExpenseBreakdown :=
  List.insertionSort ebDesc <| (transactions.foldl expensesStep []).map fun p =>
    { recipient := p.1, amount := round2 p.2.amount, count := p.2.count }

/-- The effective category both variants classify: Accounting Category
Name, else (on null) Kind, else (on the empty string) Uncategorized. -/
def effectiveCategory (tx : Transaction) : Str :=
  jsStrOr (tx.accountingCategoryName.getD tx.kind) (str "Uncategorized")

/-- The priority-ordered category rules of analyzeExpensesByCategory in
the abridged module (analysis.ts lines 141-162): first match wins and a
category matching no rule passes through unchanged. -/
def classifyExpenseCategory (category description : Str) : Str :=
  if startsWithB category (str "Consultants") ||
      containsB description (str "core maintainer stipend") then
    str "Paid Maintainers"
  else if startsWithB category (str "Grants") ||
      startsWithB category (str "Other, Support & Commu") ||
      containsB description (str "community award") then
    str "Community Incentives"
  else if category == str "EXPENSE" || category == str "CONTRIBUTION" ||
      startsWithB category (str "Expenses - Donation") ||
      startsWithB category (str "Expenses - Travel") ||
      startsWithB category (str "Contributions - Hosted") then
    str "Miscellaneous"
  else category

/-- The category rules of the full-variant analyzeExpensesByCategory,
identical to the abridged ones except for the extra rule mapping the
category HOST_FEE to OC Fees before the pass-through. -/
def classifyExpenseCategoryFull (category description : Str) : Str :=
  if startsWithB category (str "Consultants") ||
      containsB description (str "core maintainer stipend") then
    str "Paid Maintainers"
  else if startsWithB category (str "Grants") ||
      startsWithB category (str "Other, Support & Commu") ||
      containsB description (str "community award") then
    str "Community Incentives"
  else if category == str "EXPENSE" || category == str "CONTRIBUTION" ||
      startsWithB category (str "Expenses - Donation") ||
      startsWithB category (str "Expenses - Travel") ||
      startsWithB category (str "Contributions - Hosted") then
    str "Miscellaneous"
  else if category == str "HOST_FEE" then str "OC Fees"
  else category

/-- Loop body of the abridged analyzeExpensesByCategory (analysis.ts
lines 134-167). -/
def categoryStep (acc : List (Str × AmountCount)) (tx : Transaction) :
    List (Str × AmountCount) :=
  if isReversedOrReverse tx then acc
  else if ¬(tx.creditDebit = CreditDebit.DEBIT) then acc
  else
    let category := classifyExpenseCategory (effectiveCategory tx) (lowerStr tx.description)
    let current := (lookupA acc category).getD ⟨0, 0⟩
    setA acc category ⟨current.amount + |tx.amountSingleColumn|, current.count + 1⟩

/-- Port of the abridged analyzeExpensesByCategory (analysis.ts
lines 131-176). -/
def analyzeExpensesByCategory (transactions : List Transaction) : List SourceBreakdown :=
  toSourceBreakdown (transactions.foldl categoryStep [])

/-- Loop body of the full-variant analyzeExpensesByCategory. -/
def categoryStepFull (acc : List (Str × AmountCount)) (tx : Transaction) :
    List (Str × AmountCount) :=
  if isReversedOrReverse tx then acc
  else if ¬(tx.creditDebit = CreditDebit.DEBIT) then acc
  else
    let category := classifyExpenseCategoryFull (effectiveCategory tx) (lowerStr tx.description)
    let current := (lookupA acc category).getD ⟨0, 0⟩
    setA acc category ⟨current.amount + |tx.amountSingleColumn|, current.count + 1⟩

/-- Port of the full-variant analyzeExpensesByCategory (the module that
also maps HOST_FEE to OC Fees). -/
def analyzeExpensesByCategoryFull (transactions : List Transaction) : List SourceBreakdown :=
  toSourceBreakdown (transactions.foldl categoryStepFull [])

/-- Port of isRecurringContribution (analysis.ts lines 178-181). -/
def isRecurringContribution (tx : Transaction) : Bool :=
  containsB (lowerStr tx.description) (str "monthly contribution")

/-- One side (recurring or one-time) of the contributor analysis. -/
structure ContributorSide where
  amount : ℚ
  count : ℕ
  contributors : List SourceBreakdown
deriving DecidableEq

/-- Result of analyzeContributions. -/
structure ContributorAnalysis where
  recurring : ContributorSide
  oneTime : ContributorSide
deriving DecidableEq

/-- Loop body of analyzeContributions (analysis.ts lines 187-200),
threading the recurring and one-time maps as a pair. -/
def contributionsStep (acc : List (Str × AmountCount) × List (Str × AmountCount))
    (tx : Transaction) : List (Str × AmountCount) × List (Str × AmountCount) :=
  if isReversedOrReverse tx then acc
  else if ¬(tx.creditDebit = CreditDebit.CREDIT) then acc
  else if ¬(tx.kind = str "CONTRIBUTION") then acc
  else
    let source := counterpartyOf tx
    if isRecurringContribution tx then
      let current := (lookupA acc.1 source).getD ⟨0, 0⟩
      (setA acc.1 source ⟨current.amount + tx.amountSingleColumn, current.count + 1⟩, acc.2)
    else
      let current := (lookupA acc.2 source).getD ⟨0, 0⟩
      (acc.1, setA acc.2 source ⟨current.amount + tx.amountSingleColumn, current.count + 1⟩)

/-- The reduce summing breakdown amounts (analysis.ts lines 216 and 221). -/
def sumAmount (l : List SourceBreakdown) : ℚ := l.foldl (fun s c => s + c.amount) 0

/-- The reduce summing breakdown counts (analysis.ts lines 217 and 222). -/
def sumCount (l : List SourceBreakdown) : ℕ := l.foldl (fun s c => s + c.count) 0

/-- Port of analyzeContributions (analysis.ts lines 183-226). -/
def analyzeContributions (transactions : List Transaction) : ContributorAnalysis :=
  let maps := transactions.foldl contributionsStep ([], [])
  let recurringList := toSourceBreakdown maps.1
  let oneTimeList := toSourceBreakdown maps.2
  { recurring :=
      { amount := round2 (sumAmount recurringList), count := sumCount recurringList,
        contributors := recurringList },
    oneTime :=
      { amount := round2 (sumAmount oneTimeList), count := sumCount oneTimeList,
        contributors := oneTimeList } }

/-- Accumulator entry of the monthly recurring/one-time map. -/
structure RecOneAcc where
  recurring : ℚ
  oneTime : ℚ
deriving DecidableEq

/-- Row of the monthly recurring-vs-one-time report. -/
structure MonthlyRecurringData where
  month : Str
  recurring : ℚ
  oneTime : ℚ
deriving DecidableEq

/-- Ascending month-key order for monthly recurring rows. -/
def mrLe (a b : MonthlyRecurringData) : Prop := strLeB a.month b.month = true

instance : DecidableRel mrLe := fun a b => by unfold mrLe; infer_instance

/-- Loop body of analyzeMonthlyRecurringContributions (analysis.ts
lines 233-248). -/
def monthlyRecurringStep (acc : List (Str × RecOneAcc)) (tx : Transaction) :
    List (Str × RecOneAcc) :=
  if isReversedOrReverse tx then acc
  else if ¬(tx.creditDebit = CreditDebit.CREDIT) then acc
  else if ¬(tx.kind = str "CONTRIBUTION") then acc
  else
    let month := getYearMonth tx.effectiveDateTime
    let current := (lookupA acc month).getD ⟨0, 0⟩
    let updated :=
      if isRecurringContribution tx then
        { current with recurring := current.recurring + tx.amountSingleColumn }
      else
        { current with oneTime := current.oneTime + tx.amountSingleColumn }
    setA acc month updated

/-- Port of analyzeMonthlyRecurringContributions (analysis.ts
lines 228-257). -/
def analyzeMonthlyRecurringContributions (transactions : List Transaction) :
    List MonthlyRecurringData :=
  List.insertionSort mrLe <| (transactions.foldl monthlyRecurringStep []).map fun p =>
    { month := p.1, recurring := round2 p.2.recurring, oneTime := round2 p.2.oneTime }

/-- Port of monthsBetween (analysis.ts lines 259-263): split the two
YYYY-MM keys on the dash, coerce the components with Number, and count
months inclusively. -/
def monthsBetween (earliest latest : Str) : ℤ :=
  let e := (splitOnChar '-' earliest).map jsNumber
  let l := (splitOnChar '-' latest).map jsNumber
  (l.getD 0 0 - e.getD 0 0) * 12 + (l.getD 1 0 - e.getD 1 0) + 1

/-- Accumulator entry of the salaried-expenses map. -/
structure SalaryAcc where
  total : ℚ
  paymentCount : ℕ
  earliestMonth : Str
  latestMonth : Str
  description : Str
deriving DecidableEq

/-- Row of the salary analysis report. -/
structure SalaryAnalysis where
  recipient : Str
  totalPaid : ℚ
  monthlyAverage : ℚ
  paymentCount : ℕ
  firstPayment : Str
  lastPayment : Str
  description : Str
deriving DecidableEq

/-- The salary-keyword list of analyzeSalariedExpenses (analysis.ts
line 266). -/
def salaryKeywords : List Str :=
  [str "stipend", str "salary", str "maintainer", str "contractor", str "developer"]

/-- The salary-like test of analyzeSalariedExpenses (analysis.ts
lines 277-282): a keyword in the lower-cased description, or consultant
or maintenance in the lower-cased accounting category. -/
def isSalaryLike (tx : Transaction) : Bool :=
  let descLower := lowerStr tx.description
  let categoryLower := lowerStr (tx.accountingCategoryName.getD [])
  salaryKeywords.any (fun kw => containsB descLower kw) ||
    containsB categoryLower (str "consultant") ||
    containsB categoryLower (str "maintenance")

/-- Loop body of analyzeSalariedExpenses (analysis.ts lines 272-300). -/
def salariedStep (acc : List (Str × SalaryAcc)) (tx : Transaction) :
    List (Str × SalaryAcc) :=
  if isReversedOrReverse tx then acc
  else if ¬(tx.creditDebit = CreditDebit.DEBIT) then acc
  else if ¬(tx.kind = str "EXPENSE") then acc
  else if ¬(isSalaryLike tx = true) then acc
  else
    let recipient := counterpartyOf tx
    let month := getYearMonth tx.effectiveDateTime
    let current := (lookupA acc recipient).getD
      ⟨0, 0, month, month, tx.description⟩
    let paid :=
      { current with total := current.total + |tx.amountSingleColumn|,
                     paymentCount := current.paymentCount + 1 }
    let lowered :=
      if strLtB month paid.earliestMonth then { paid with earliestMonth := month } else paid
    let raised :=
      if strLtB lowered.latestMonth month then { lowered with latestMonth := month }
      else lowered
    setA acc recipient raised

/-- Descending-total order for salary rows. -/
def salDesc (a b : SalaryAnalysis) : Prop := b.totalPaid ≤ a.totalPaid

instance : DecidableRel salDesc := fun a b => by unfold salDesc; infer_instance

/-- Port of analyzeSalariedExpenses (analysis.ts lines 265-316). -/
def analyzeSalariedExpenses (transactions : List Transaction) : List SalaryAnalysis :=
  List.insertionSort salDesc <| (transactions.foldl salariedStep []).map fun p =>
    let monthSpan := monthsBetween p.2.earliestMonth p.2.latestMonth
    { recipient := p.1, totalPaid := round2 p.2.total,
      monthlyAverage := round2 (p.2.total / (monthSpan : ℚ)),
      paymentCount := p.2.paymentCount, firstPayment := p.2.earliestMonth,
      lastPayment := p.2.latestMonth, description := p.2.description }

/-- The monthsOfRunway value: the JS Infinity produced when the average
net is non-negative, or a finite floor. -/
inductive MonthsOfRunway where
  | posInfinity
  | finite (n : ℤ)
deriving DecidableEq

/-- Result of calculateRunwayProjection. -/
structure RunwayProjection where
  currentBalance : ℚ
  averageMonthlyExpenses : ℚ
  averageMonthlyIncome : ℚ
  averageMonthlyNet : ℚ
  monthsOfRunway : MonthsOfRunway
  requiredMonthlyContribution : ℚ
deriving DecidableEq

/-- The recentMonths slice of calculateRunwayProjection (analysis.ts
line 323). -/
def runwayRecentMonths (transactions : List Transaction) (monthsToAverage : ℕ) :
    List MonthlyData :=
  jsSliceLast (calculateMonthlyData transactions) monthsToAverage

/-- The currentBalance accumulation of calculateRunwayProjection
(analysis.ts line 325): the sum of net over all months. -/
def runwayCurrentBalance (transactions : List Transaction) : ℚ :=
  (calculateMonthlyData transactions).foldl (fun s m => s + m.net) 0

/-- The averageMonthlyExpenses of calculateRunwayProjection (analysis.ts
lines 326-327). -/
def runwayAverageMonthlyExpenses (transactions : List Transaction)
    (monthsToAverage : ℕ) : ℚ :=
  ((runwayRecentMonths transactions monthsToAverage).foldl (fun s m => s + m.expenses) 0) /
    ((runwayRecentMonths transactions monthsToAverage).length : ℚ)

/-- The averageMonthlyIncome of calculateRunwayProjection (analysis.ts
lines 328-329). -/
def runwayAverageMonthlyIncome (transactions : List Transaction)
    (monthsToAverage : ℕ) : ℚ :=
  ((runwayRecentMonths transactions monthsToAverage).foldl (fun s m => s + m.income) 0) /
    ((runwayRecentMonths transactions monthsToAverage).length : ℚ)

/-- The averageMonthlyNet of calculateRunwayProjection (analysis.ts
line 330). -/
def runwayAverageMonthlyNet (transactions : List Transaction)
    (monthsToAverage : ℕ) : ℚ :=
  runwayAverageMonthlyIncome transactions monthsToAverage -
    runwayAverageMonthlyExpenses transactions monthsToAverage

/-- Port of calculateRunwayProjection (analysis.ts lines 318-348). -/
def calculateRunwayProjection (transactions : List Transaction)
    (monthsToAverage : ℕ := 6) : RunwayProjection :=
  let currentBalance := runwayCurrentBalance transactions
  let averageMonthlyExpenses := runwayAverageMonthlyExpenses transactions monthsToAverage
  let averageMonthlyIncome := runwayAverageMonthlyIncome transactions monthsToAverage
  let averageMonthlyNet := averageMonthlyIncome - averageMonthlyExpenses
  { currentBalance := round2 currentBalance,
    averageMonthlyExpenses := round2 averageMonthlyExpenses,
    averageMonthlyIncome := round2 averageMonthlyIncome,
    averageMonthlyNet := round2 averageMonthlyNet,
    monthsOfRunway :=
      if 0 ≤ averageMonthlyNet then MonthsOfRunway.posInfinity
      else MonthsOfRunway.finite ⌊currentBalance / |averageMonthlyNet|⌋,
    requiredMonthlyContribution :=
      round2
        (if averageMonthlyIncome < averageMonthlyExpenses then
          averageMonthlyExpenses - averageMonthlyIncome
        else 0) }

/-- Row of the largest-single-contributions report. -/
structure SingleContribution where
  date : Str
  source : Str
  amount : ℚ
  description : Str
  isRecurring : Bool
deriving DecidableEq

/-- The date portion of the effective timestamp: the split on T taken at
index 0 (analysis.ts line 413). -/
def jsDateOnly (s : Str) : Str :=
  match splitOnChar 'T' s with
  | [] => []
  | d :: _ => d

/-- The record pushed for each kept CREDIT transaction (analysis.ts
lines 412-418). -/
def mkSingleContribution (tx : Transaction) : SingleContribution :=
  { date := jsDateOnly tx.effectiveDateTime, source := counterpartyOf tx,
    amount := tx.amountSingleColumn, description := tx.description,
    isRecurring := isRecurringContribution tx }

/-- Loop body of getLargestSingleContributions (analysis.ts
lines 408-419). -/
def contributionPushStep (acc : List SingleContribution) (tx : Transaction) :
    List SingleContribution :=
  if isReversedOrReverse tx then acc
  else if ¬(tx.creditDebit = CreditDebit.CREDIT) then acc
  else acc ++ [mkSingleContribution tx]

/-- Descending-amount order for single contributions. -/
def scDesc (a b : SingleContribution) : Prop := b.amount ≤ a.amount

instance : DecidableRel scDesc := fun a b => by unfold scDesc; infer_instance

/-- Port of getLargestSingleContributions (analysis.ts lines 402-422). -/
def getLargestSingleContributions (transactions : List Transaction)
    (limit : ℕ := 10) : List SingleContribution :=
  (List.insertionSort scDesc (transactions.foldl contributionPushStep [])).take limit

/-- Port of getLargestOneTimeContributions (analysis.ts lines 424-431):
reuse the singles report with the intermediate cap 1000, filter to
non-recurring, then slice to the requested limit. -/
def getLargestOneTimeContributions (transactions : List Transaction)
    (limit : ℕ := 10) : List SingleContribution :=
  ((getLargestSingleContributions transactions 1000).filter fun c => !(c.isRecurring)).take
    limit

/-- Modelled from the spec: rounding with ties away from zero, the
semantics section 4.3 of the spec ascribes to round(x * 100) / 100. -/
def specAwayRound (y : ℚ) : ℤ := if 0 ≤ y then ⌊y + 1 / 2⌋ else -⌊-y + 1 / 2⌋

/-- Modelled from the spec: round to 2 decimal places with ties away
from zero. -/
def specRound2 (x : ℚ) : ℚ := (specAwayRound (x * 100) : ℚ) / 100

/-- A transaction the monthly loop keeps and buckets under month key k. -/
def keptIn (k : Str) (tx : Transaction) : Bool :=
  !(isReversedOrReverse tx) && decide (getYearMonth tx.effectiveDateTime = k)

/-- A kept CREDIT transaction of month k. -/
def keptCreditIn (k : Str) (tx : Transaction) : Bool :=
  keptIn k tx && decide (tx.creditDebit = CreditDebit.CREDIT)

/-- A kept DEBIT transaction of month k. -/
def keptDebitIn (k : Str) (tx : Transaction) : Bool :=
  keptIn k tx && decide (tx.creditDebit = CreditDebit.DEBIT)

/-- The exact (unrounded) income of month k: the sum of the CREDIT
amounts of the kept transactions of that month. -/
def monthCreditSum (txs : List Transaction) (k : Str) : ℚ :=
  ((txs.filter (keptCreditIn k)).map fun tx => tx.amountSingleColumn).sum

/-- The exact (unrounded) expenses of month k: the sum of the absolute
DEBIT amounts of the kept transactions of that month. -/
def monthDebitSum (txs : List Transaction) (k : Str) : ℚ :=
  ((txs.filter (keptDebitIn k)).map fun tx => |tx.amountSingleColumn|).sum

/-- A quantity that is a whole number of cents. -/
def CentMul (q : ℚ) : Prop := ∃ n : ℤ, q = (n : ℚ) / 100

/-- A sub-cent CREDIT contribution (1/128 of a currency unit), exactly
representable in binary64 as in the source runtime. -/
def subCentCredit : Transaction :=
  { effectiveDateTime := str "2024-01-10T00:00:00Z", description := str "tiny gift",
    creditDebit := CreditDebit.CREDIT, kind := str "CONTRIBUTION",
    amountSingleColumn := 1 / 128, isReverse := none, isReversed := none,
    reverseTransactionId := none, oppositeAccountHandle := str "",
    oppositeAccountName := str "Ann", accountingCategoryName := none }

/-- A sub-cent DEBIT (minus 1/256 of a currency unit). -/
def subCentDebit : Transaction :=
  { effectiveDateTime := str "2024-01-20T00:00:00Z", description := str "tiny fee",
    creditDebit := CreditDebit.DEBIT, kind := str "EXPENSE",
    amountSingleColumn := -1 / 256, isReverse := none, isReversed := none,
    reverseTransactionId := none, oppositeAccountHandle := str "",
    oppositeAccountName := str "Bank", accountingCategoryName := none }

/-- A DEBIT of 0.125, producing the monthly net -0.125 whose scaled value
-12.5 is a rounding tie. -/
def negTieDebit : Transaction :=
  { effectiveDateTime := str "2024-01-15T00:00:00Z", description := str "hosting bill",
    creditDebit := CreditDebit.DEBIT, kind := str "EXPENSE",
    amountSingleColumn := -1 / 8, isReverse := none, isReversed := none,
    reverseTransactionId := none, oppositeAccountHandle := str "",
    oppositeAccountName := str "Acme", accountingCategoryName := none }

/-- A plain DEBIT of 10, giving one month with net -10. -/
def plainDebitTen : Transaction :=
  { effectiveDateTime := str "2024-01-05T00:00:00Z", description := str "server invoice",
    creditDebit := CreditDebit.DEBIT, kind := str "EXPENSE",
    amountSingleColumn := -10, isReverse := none, isReversed := none,
    reverseTransactionId := none, oppositeAccountHandle := str "",
    oppositeAccountName := str "Vendor", accountingCategoryName := none }

/-- Builder for the contribution demo set: a kept CREDIT contribution. -/
def demoCredit (day : String) (name : String) (amount : ℚ) (description : String) :
    Transaction :=
  { effectiveDateTime := str (day ++ "T12:00:00Z"), description := str description,
    creditDebit := CreditDebit.CREDIT, kind := str "CONTRIBUTION",
    amountSingleColumn := amount, isReverse := none, isReversed := none,
    reverseTransactionId := none, oppositeAccountHandle := str "",
    oppositeAccountName := str name, accountingCategoryName := none }

/-- Ten large contributions: three one-time and seven recurring, the
population of the two-step-limit test of the spec. -/
def oneTimeDemoTxs : List Transaction :=
  [demoCredit "2025-01-01" "R1" 900 "Monthly contribution from R1",
   demoCredit "2025-02-01" "R2" 800 "Monthly contribution from R2",
   demoCredit "2025-03-01" "R3" 700 "Monthly contribution from R3",
   demoCredit "2025-04-01" "R4" 600 "Monthly contribution from R4",
   demoCredit "2025-05-01" "R5" 550 "Monthly contribution from R5",
   demoCredit "2025-06-01" "R6" 520 "Monthly contribution from R6",
   demoCredit "2025-07-01" "R7" 510 "Monthly contribution from R7",
   demoCredit "2025-08-01" "Carol" 500 "One time gift C",
   demoCredit "2025-09-01" "Dave" 300 "One time gift D",
   demoCredit "2025-10-01" "Erin" 100 "One time gift E"]

/-- A salaried recipient paid in January and in March only. -/
def salaryDemoTxs : List Transaction :=
  [{ effectiveDateTime := str "2024-01-15T00:00:00Z", description := str "Stipend january",
     creditDebit := CreditDebit.DEBIT, kind := str "EXPENSE",
     amountSingleColumn := -30, isReverse := none, isReversed := none,
     reverseTransactionId := none, oppositeAccountHandle := str "",
     oppositeAccountName := str "Alice", accountingCategoryName := none },
   { effectiveDateTime := str "2024-03-15T00:00:00Z", description := str "Stipend march",
     creditDebit := CreditDebit.DEBIT, kind := str "EXPENSE",
     amountSingleColumn := -30, isReverse := none, isReversed := none,
     reverseTransactionId := none, oppositeAccountHandle := str "",
     oppositeAccountName := str "Alice", accountingCategoryName := none }]

/-- The salary row the demo recipient produces: total 60 over the
inclusive three-month span January-March, so average 20. -/
def salaryDemoRow : SalaryAnalysis :=
  { recipient := str "Alice", totalPaid := 60, monthlyAverage := 20, paymentCount := 2,
    firstPayment := str "2024-01", lastPayment := str "2024-03",
    description := str "Stipend january" }

/-- A DEBIT whose category starts with Consultants and whose description
contains community award. -/
def consultantsAwardTx : Transaction :=
  { effectiveDateTime := str "2024-02-10T00:00:00Z",
    description := str "Community Award payout",
    creditDebit := CreditDebit.DEBIT, kind := str "EXPENSE",
    amountSingleColumn := -100, isReverse := none, isReversed := none,
    reverseTransactionId := none, oppositeAccountHandle := str "",
    oppositeAccountName := str "Quinn",
    accountingCategoryName := some (str "Consultants - Development") }

/-- A kept DEBIT whose effective category is exactly HOST_FEE and whose
description matches no earlier category rule. -/
def hostFeeTx : Transaction :=
  { effectiveDateTime := str "2024-02-01T00:00:00Z", description := str "platform fee",
    creditDebit := CreditDebit.DEBIT, kind := str "HOST_FEE",
    amountSingleColumn := -15, isReverse := none, isReversed := none,
    reverseTransactionId := none, oppositeAccountHandle := str "",
    oppositeAccountName := str "Open Collective", accountingCategoryName := none }

/-- A one-element list with an ordinary categorized DEBIT and no
HOST_FEE transaction. -/
def noHostFeeDemoTxs : List Transaction :=
  [{ effectiveDateTime := str "2024-02-03T00:00:00Z", description := str "license",
     creditDebit := CreditDebit.DEBIT, kind := str "EXPENSE",
     amountSingleColumn := -25, isReverse := none, isReversed := none,
     reverseTransactionId := none, oppositeAccountHandle := str "",
     oppositeAccountName := str "Toolco",
     accountingCategoryName := some (str "Software") }]

/-- A kept CREDIT transaction (the filter of the credit aggregators). -/
def keepCredit (tx : Transaction) : Bool :=
  !(isReversedOrReverse tx) && decide (tx.creditDebit = CreditDebit.CREDIT)

/-- A kept DEBIT transaction (the filter of the debit aggregators). -/
def keepDebit (tx : Transaction) : Bool :=
  !(isReversedOrReverse tx) && decide (tx.creditDebit = CreditDebit.DEBIT)

/-- A kept CREDIT CONTRIBUTION (the filter of the contribution
aggregators). -/
def keepContrib (tx : Transaction) : Bool :=
  keepCredit tx && decide (tx.kind = str "CONTRIBUTION")

/-- A kept recurring contribution. -/
def keepContribRec (tx : Transaction) : Bool :=
  keepContrib tx && isRecurringContribution tx

/-- A kept one-time contribution. -/
def keepContribOne (tx : Transaction) : Bool :=
  keepContrib tx && !(isRecurringContribution tx)

/-- A kept salary-like DEBIT EXPENSE (the filter of
analyzeSalariedExpenses). -/
def keepSalary (tx : Transaction) : Bool :=
  !(isReversedOrReverse tx) && decide (tx.creditDebit = CreditDebit.DEBIT) &&
    decide (tx.kind = str "EXPENSE") && isSalaryLike tx

/-- The signed amount of a transaction. -/
def txAmount (tx : Transaction) : ℚ := tx.amountSingleColumn

/-- The absolute amount of a transaction. -/
def txAbsAmount (tx : Transaction) : ℚ := |tx.amountSingleColumn|

/-- The month key of a transaction. -/
def mKey (tx : Transaction) : Str := getYearMonth tx.effectiveDateTime

/-- The mapped category of a transaction in the abridged variant. -/
def categoryOf (tx : Transaction) : Str :=
  classifyExpenseCategory (effectiveCategory tx) (lowerStr tx.description)

/-- The mapped category of a transaction in the full variant. -/
def categoryOfFull (tx : Transaction) : Str :=
  classifyExpenseCategoryFull (effectiveCategory tx) (lowerStr tx.description)

/-- The common loop body of the breakdown aggregators: keep or skip the
transaction, then accumulate its value and a count under its key. -/
def acStep (keep : Transaction → Bool) (keyOf : Transaction → Str)
    (val : Transaction → ℚ) (acc : List (Str × AmountCount)) (tx : Transaction) :
    List (Str × AmountCount) :=
  if keep tx then
    let cur := (lookupA acc (keyOf tx)).getD ⟨0, 0⟩
    setA acc (keyOf tx) ⟨cur.amount + val tx, cur.count + 1⟩
  else acc

/-- A kept transaction bucketed under key k. -/
def keyedFor (keep : Transaction → Bool) (keyOf : Transaction → Str) (k : Str)
    (tx : Transaction) : Bool :=
  keep tx && decide (keyOf tx = k)

/-- The exact (unrounded) accumulated value of key k: the sum of the
values of the kept transactions bucketed under k. -/
def keySum (keep : Transaction → Bool) (keyOf : Transaction → Str)
    (val : Transaction → ℚ) (txs : List Transaction) (k : Str) : ℚ :=
  ((txs.filter (keyedFor keep keyOf k)).map val).sum

/-- The accumulated count of key k. -/
def keyCount (keep : Transaction → Bool) (keyOf : Transaction → Str)
    (txs : List Transaction) (k : Str) : ℕ :=
  (txs.filter (keyedFor keep keyOf k)).length

/-- The exact recurring-contribution sum of month k. -/
def monthRecSum (txs : List Transaction) (k : Str) : ℚ :=
  keySum keepContribRec mKey txAmount txs k

/-- The exact one-time-contribution sum of month k. -/
def monthOneSum (txs : List Transaction) (k : Str) : ℚ :=
  keySum keepContribOne mKey txAmount txs k

/-- The exact total paid to recipient k: the sum of absolute amounts of
the kept salary-like transactions with that counterparty. -/
def salarySum (txs : List Transaction) (k : Str) : ℚ :=
  keySum keepSalary counterpartyOf txAbsAmount txs k

/-- A string is never below itself. -/
lemma strLtB_irrefl : ∀ a : Str, strLtB a a = false := by
  intro a
  induction a with
  | nil => rfl
  | cons x xs ih => simp [strLtB, ih]

/-- Strict string comparison is asymmetric. -/
lemma strLtB_asymm : ∀ a b : Str, strLtB a b = true → strLtB b a = false := by
  intro a
  induction a with
  | nil =>
    intro b h
    cases b with
    | nil => simp [strLtB] at h
    | cons y ys => simp [strLtB]
  | cons x xs ih =>
    intro b h
    cases b with
    | nil => simp [strLtB] at h
    | cons y ys =>
      simp only [strLtB] at h ⊢
      by_cases h1 : x < y
      · rw [if_neg (lt_asymm h1), if_pos h1]
      · rw [if_neg h1] at h
        by_cases h2 : y < x
        · rw [if_pos h2] at h
          exact absurd h (by simp)
        · rw [if_neg h2] at h
          rw [if_neg h2, if_neg h1]
          exact ih ys h

/-- Strict string comparison is transitive. -/
lemma strLtB_trans : ∀ a b c : Str, strLtB a b = true → strLtB b c = true → strLtB a c = true := by
  intro a
  induction a with
  | nil =>
    intro b c h1 h2
    cases c with
    | nil =>
      cases b with
      | nil => exact h1
      | cons y ys => simp [strLtB] at h2
    | cons z zs => simp [strLtB]
  | cons x xs ih =>
    intro b c h1 h2
    cases b with
    | nil => simp [strLtB] at h1
    | cons y ys =>
      cases c with
      | nil => simp [strLtB] at h2
      | cons z zs =>
        simp only [strLtB] at h1 h2 ⊢
        by_cases hxy : x < y
        · by_cases hyz : y < z
          · rw [if_pos (lt_trans hxy hyz)]
          · rw [if_neg hyz] at h2
            by_cases hzy : z < y
            · rw [if_pos hzy] at h2
              exact absurd h2 (by simp)
            · have hyzeq : y = z := le_antisymm (not_lt.mp hzy) (not_lt.mp hyz)
              rw [if_pos (hyzeq ▸ hxy)]
        · rw [if_neg hxy] at h1
          by_cases hyx : y < x
          · rw [if_pos hyx] at h1
            exact absurd h1 (by simp)
          · have hxyeq : x = y := le_antisymm (not_lt.mp hyx) (not_lt.mp hxy)
            rw [if_neg hyx] at h1
            by_cases hyz : y < z
            · rw [if_pos (hxyeq ▸ hyz)]
            · rw [if_neg hyz] at h2
              by_cases hzy : z < y
              · rw [if_pos hzy] at h2
                exact absurd h2 (by simp)
              · rw [if_neg hzy] at h2
                have hyzeq : y = z := le_antisymm (not_lt.mp hzy) (not_lt.mp hyz)
                have hxz : ¬x < z := hyzeq ▸ hxyeq ▸ lt_irrefl x
                have hzx : ¬z < x := hyzeq ▸ hxyeq ▸ lt_irrefl x
                rw [if_neg hxz, if_neg hzx]
                exact ih ys zs h1 h2

/-- Two strings neither of which is below the other are equal. -/
lemma strLtB_eq_of_not : ∀ a b : Str, strLtB a b = false → strLtB b a = false → a = b := by
  intro a
  induction a with
  | nil =>
    intro b h1 _
    cases b with
    | nil => rfl
    | cons y ys => simp [strLtB] at h1
  | cons x xs ih =>
    intro b h1 h2
    cases b with
    | nil => simp [strLtB] at h2
    | cons y ys =>
      simp only [strLtB] at h1 h2
      by_cases hxy : x < y
      · rw [if_pos hxy] at h1
        exact absurd h1 (by simp)
      · by_cases hyx : y < x
        · rw [if_pos hyx] at h2
          exact absurd h2 (by simp)
        · have hxyeq : x = y := le_antisymm (not_lt.mp hyx) (not_lt.mp hxy)
          rw [if_neg hxy, if_neg hyx] at h1
          rw [if_neg hyx, if_neg hxy] at h2
          rw [hxyeq, ih ys h1 h2]

/-- The non-strict comparison is total. -/
lemma strLeB_total (a b : Str) : strLeB a b = true ∨ strLeB b a = true := by
  by_cases h : strLtB b a = true
  · exact Or.inr (by simp [strLeB, strLtB_asymm b a h])
  · exact Or.inl (by simp [strLeB, Bool.not_eq_true] at h ⊢; exact h)

/-- The non-strict comparison is transitive. -/
lemma strLeB_trans {a b c : Str} (h1 : strLeB a b = true) (h2 : strLeB b c = true) :
    strLeB a c = true := by
  simp only [strLeB, Bool.not_eq_true'] at h1 h2 ⊢
  by_cases hca : strLtB c a = true
  · by_cases hab : strLtB a b = true
    · have := strLtB_trans c a b hca hab
      rw [this] at h2
      exact absurd h2 (by simp)
    · have hba : strLtB b a = false := h1
      have hab2 : strLtB a b = false := by
        by_cases h : strLtB a b = true
        · exact absurd h hab
        · exact Bool.not_eq_true _ ▸ (by simpa using h)
      have : a = b := strLtB_eq_of_not a b hab2 hba
      rw [this] at hca
      rw [hca] at h2
      exact absurd h2 (by simp)
  · exact Bool.not_eq_true _ ▸ (by simpa using hca)

/-- Non-strict below plus distinctness gives strict below. -/
lemma strLtB_of_le_of_ne {a b : Str} (h1 : strLeB a b = true) (h2 : a ≠ b) :
    strLtB a b = true := by
  simp only [strLeB, Bool.not_eq_true'] at h1
  by_cases h : strLtB a b = true
  · exact h
  · have hab : strLtB a b = false := by simpa using h
    exact absurd (strLtB_eq_of_not a b hab h1) h2

/-- A fold whose step ignores reversal-marked transactions computes the
same value on the filtered input. -/
lemma foldl_skip {β : Type} (step : β → Transaction → β)
    (h : ∀ s tx, isReversedOrReverse tx = true → step s tx = s) :
    ∀ (txs : List Transaction) (init : β),
      (removeReversed txs).foldl step init = txs.foldl step init := by
  intro txs
  induction txs with
  | nil => intro init; rfl
  | cons tx rest ih =>
    intro init
    simp only [removeReversed, List.filter_cons] at *
    by_cases hr : isReversedOrReverse tx
    · simp only [hr, Bool.not_true, Bool.false_eq_true, if_false, List.foldl_cons,
        h init tx hr]
      exact ih init
    · have hr2 : isReversedOrReverse tx = false := by simpa using hr
      simp only [hr2, Bool.not_false, if_true, List.foldl_cons]
      exact ih (step init tx)

lemma monthStep_skip (s : List (Str × MonthAcc)) (tx : Transaction)
    (h : isReversedOrReverse tx = true) : monthStep s tx = s := by
  simp [monthStep, h]

lemma calculateMonthlyData_removeReversed (txs : List Transaction) :
    calculateMonthlyData (removeReversed txs) = calculateMonthlyData txs := by
  unfold calculateMonthlyData
  rw [foldl_skip monthStep monthStep_skip txs]

lemma analyzeIncomeSources_removeReversed (txs : List Transaction) :
    analyzeIncomeSources (removeReversed txs) = analyzeIncomeSources txs := by
  unfold analyzeIncomeSources
  rw [foldl_skip incomeSourcesStep (fun s tx h => by simp [incomeSourcesStep, h]) txs]

lemma analyzeExpenses_removeReversed (txs : List Transaction) :
    analyzeExpenses (removeReversed txs) = analyzeExpenses txs := by
  unfold analyzeExpenses
  rw [foldl_skip expensesStep (fun s tx h => by simp [expensesStep, h]) txs]

lemma analyzeExpensesByCategory_removeReversed (txs : List Transaction) :
    analyzeExpensesByCategory (removeReversed txs) = analyzeExpensesByCategory txs := by
  unfold analyzeExpensesByCategory
  rw [foldl_skip categoryStep (fun s tx h => by simp [categoryStep, h]) txs]

lemma analyzeContributions_removeReversed (txs : List Transaction) :
    analyzeContributions (removeReversed txs) = analyzeContributions txs := by
  unfold analyzeContributions
  rw [foldl_skip contributionsStep (fun s tx h => by simp [contributionsStep, h]) txs]

lemma analyzeMonthlyRecurringContributions_removeReversed (txs : List Transaction) :
    analyzeMonthlyRecurringContributions (removeReversed txs) =
      analyzeMonthlyRecurringContributions txs := by
  unfold analyzeMonthlyRecurringContributions
  rw [foldl_skip monthlyRecurringStep (fun s tx h => by simp [monthlyRecurringStep, h]) txs]

lemma analyzeSalariedExpenses_removeReversed (txs : List Transaction) :
    analyzeSalariedExpenses (removeReversed txs) = analyzeSalariedExpenses txs := by
  unfold analyzeSalariedExpenses
  rw [foldl_skip salariedStep (fun s tx h => by simp [salariedStep, h]) txs]

lemma calculateRunwayProjection_removeReversed (txs : List Transaction) (k : ℕ) :
    calculateRunwayProjection (removeReversed txs) k = calculateRunwayProjection txs k := by
  unfold calculateRunwayProjection runwayCurrentBalance runwayAverageMonthlyExpenses
    runwayAverageMonthlyIncome runwayRecentMonths
  rw [calculateMonthlyData_removeReversed txs]

lemma getLargestSingleContributions_removeReversed (txs : List Transaction) (n : ℕ) :
    getLargestSingleContributions (removeReversed txs) n =
      getLargestSingleContributions txs n := by
  unfold getLargestSingleContributions
  rw [foldl_skip contributionPushStep (fun s tx h => by simp [contributionPushStep, h]) txs]

lemma getLargestOneTimeContributions_removeReversed (txs : List Transaction) (n : ℕ) :
    getLargestOneTimeContributions (removeReversed txs) n =
      getLargestOneTimeContributions txs n := by
  unfold getLargestOneTimeContributions
  rw [getLargestSingleContributions_removeReversed txs 1000]

/-- Summing foldl as a mapped list sum. -/
lemma foldl_add_eq {α : Type} (f : α → ℚ) :
    ∀ (l : List α) (a : ℚ), l.foldl (fun s x => s + f x) a = a + (l.map f).sum := by
  intro l
  induction l with
  | nil => intro a; simp
  | cons x xs ih =>
    intro a
    simp only [List.foldl_cons, List.map_cons, List.sum_cons, ih (a + f x)]
    ring

/-- Counting foldl as a mapped list sum. -/
lemma foldl_add_nat_eq {α : Type} (f : α → ℕ) :
    ∀ (l : List α) (a : ℕ), l.foldl (fun s x => s + f x) a = a + (l.map f).sum := by
  intro l
  induction l with
  | nil => intro a; simp
  | cons x xs ih =>
    intro a
    simp only [List.foldl_cons, List.map_cons, List.sum_cons, ih (a + f x)]
    omega

lemma sumAmount_eq (l : List SourceBreakdown) :
    sumAmount l = (l.map SourceBreakdown.amount).sum := by
  unfold sumAmount
  rw [foldl_add_eq SourceBreakdown.amount l 0, zero_add]

lemma sumCount_eq (l : List SourceBreakdown) :
    sumCount l = (l.map SourceBreakdown.count).sum := by
  unfold sumCount
  rw [foldl_add_nat_eq SourceBreakdown.count l 0, zero_add]

/-- The push loop of getLargestSingleContributions collects exactly the
kept CREDIT transactions, in input order. -/
lemma contributionPush_eq :
    ∀ (txs : List Transaction) (acc : List SingleContribution),
      txs.foldl contributionPushStep acc =
        acc ++ ((removeReversed txs).filter fun tx =>
          decide (tx.creditDebit = CreditDebit.CREDIT)).map mkSingleContribution := by
  intro txs
  induction txs with
  | nil => intro acc; simp [removeReversed]
  | cons tx rest ih =>
    intro acc
    simp only [removeReversed, List.foldl_cons, List.filter_cons] at *
    by_cases hr : isReversedOrReverse tx
    · simp only [contributionPushStep, hr, if_true, Bool.not_true, Bool.false_eq_true,
        if_false]
      exact ih acc
    · have hr2 : isReversedOrReverse tx = false := by simpa using hr
      by_cases hc : tx.creditDebit = CreditDebit.CREDIT
      · rw [show contributionPushStep acc tx = acc ++ [mkSingleContribution tx] by
          simp [contributionPushStep, hr2, hc]]
        rw [ih (acc ++ [mkSingleContribution tx])]
        simp [hc, hr2, List.filter_filter]
      · rw [show contributionPushStep acc tx = acc by simp [contributionPushStep, hr2, hc]]
        rw [ih acc]
        simp [hc, hr2, List.filter_filter]

/-- getLargestSingleContributions as sort-then-take over the kept CREDIT
records. -/
lemma getLargestSingleContributions_eq (txs : List Transaction) (lim : ℕ) :
    getLargestSingleContributions txs lim =
      (List.insertionSort scDesc
        (((removeReversed txs).filter fun tx =>
            decide (tx.creditDebit = CreditDebit.CREDIT)).map mkSingleContribution)).take
        lim := by
  unfold getLargestSingleContributions
  rw [contributionPush_eq txs []]
  rfl

lemma lookupA_setA_self {α : Type} :
    ∀ (m : List (Str × α)) (k : Str) (v : α), lookupA (setA m k v) k = some v := by
  intro m
  induction m with
  | nil => intro k v; simp [setA, lookupA]
  | cons p rest ih =>
    intro k v
    obtain ⟨k0, w⟩ := p
    by_cases h : k0 = k
    · simp [setA, h, lookupA]
    · simp [setA, h, lookupA, ih]

lemma lookupA_setA_ne {α : Type} :
    ∀ (m : List (Str × α)) (k key : Str) (v : α),
      k ≠ key → lookupA (setA m k v) key = lookupA m key := by
  intro m
  induction m with
  | nil => intro k key v hne; simp [setA, lookupA, hne]
  | cons p rest ih =>
    intro k key v hne
    obtain ⟨k0, w⟩ := p
    by_cases h : k0 = k
    · subst h
      simp [setA, lookupA, fun h : k0 = key => hne h]
    · simp only [setA, if_neg h, lookupA]
      by_cases h2 : k0 = key
      · simp [h2]
      · simp [h2, ih k key v hne]

lemma mem_keys_setA {α : Type} :
    ∀ (m : List (Str × α)) (k key : Str) (v : α),
      key ∈ (setA m k v).map Prod.fst ↔ (key ∈ m.map Prod.fst ∨ key = k) := by
  intro m
  induction m with
  | nil => intro k key v; simp [setA]
  | cons p rest ih =>
    intro k key v
    obtain ⟨k0, w⟩ := p
    by_cases h : k0 = k
    · subst h
      rw [show setA ((k0, w) :: rest) k0 v = (k0, v) :: rest from by simp [setA]]
      simp only [List.map_cons, List.mem_cons]
      tauto
    · simp only [setA, if_neg h, List.map_cons, List.mem_cons, ih k key v]
      tauto

lemma nodup_keys_setA {α : Type} :
    ∀ (m : List (Str × α)) (k : Str) (v : α),
      (m.map Prod.fst).Nodup → ((setA m k v).map Prod.fst).Nodup := by
  intro m
  induction m with
  | nil => intro k v _; simp [setA]
  | cons p rest ih =>
    intro k v hnd
    obtain ⟨k0, w⟩ := p
    simp only [List.map_cons, List.nodup_cons] at hnd
    by_cases h : k0 = k
    · subst h
      rw [show setA ((k0, w) :: rest) k0 v = (k0, v) :: rest from by simp [setA]]
      simp only [List.map_cons, List.nodup_cons]
      exact hnd
    · simp only [setA, if_neg h, List.map_cons, List.nodup_cons]
      refine ⟨?_, ih k v hnd.2⟩
      rw [mem_keys_setA]
      push_neg
      exact ⟨hnd.1, h⟩

lemma lookupA_eq_of_mem {α : Type} :
    ∀ (m : List (Str × α)) (k : Str) (v : α),
      (m.map Prod.fst).Nodup → (k, v) ∈ m → lookupA m k = some v := by
  intro m
  induction m with
  | nil => intro k v _ hm; simp at hm
  | cons p rest ih =>
    intro k v hnd hm
    obtain ⟨k0, w⟩ := p
    simp only [List.map_cons, List.nodup_cons] at hnd
    rcases List.mem_cons.mp hm with heq | hmem
    · injection heq with h1 h2
      simp [lookupA, h1, h2]
    · have hne : k0 ≠ k := by
        intro hk
        subst hk
        exact hnd.1 (List.mem_map.mpr ⟨(k0, v), hmem, rfl⟩)
      simp only [lookupA, if_neg hne]
      exact ih k v hnd.2 hmem

/-- The update a non-skipped transaction performs on the monthly map. -/
lemma monthStep_notRev (init : List (Str × MonthAcc)) (tx : Transaction)
    (h : isReversedOrReverse tx = false) :
    monthStep init tx =
      setA init (getYearMonth tx.effectiveDateTime)
        (if tx.creditDebit = CreditDebit.CREDIT then
          { (lookupA init (getYearMonth tx.effectiveDateTime)).getD ⟨0, 0⟩ with
              income :=
                ((lookupA init (getYearMonth tx.effectiveDateTime)).getD ⟨0, 0⟩).income +
                  tx.amountSingleColumn }
        else
          { (lookupA init (getYearMonth tx.effectiveDateTime)).getD ⟨0, 0⟩ with
              expenses :=
                ((lookupA init (getYearMonth tx.effectiveDateTime)).getD ⟨0, 0⟩).expenses +
                  |tx.amountSingleColumn| }) := by
  simp only [monthStep, h, Bool.false_eq_true, if_false]

lemma keptCreditIn_false_of_rev {k : Str} {tx : Transaction}
    (h : isReversedOrReverse tx = true) : keptCreditIn k tx = false := by
  simp [keptCreditIn, keptIn, h]

lemma keptDebitIn_false_of_rev {k : Str} {tx : Transaction}
    (h : isReversedOrReverse tx = true) : keptDebitIn k tx = false := by
  simp [keptDebitIn, keptIn, h]

lemma monthCreditSum_cons_false {tx : Transaction} {rest : List Transaction} {k : Str}
    (h : keptCreditIn k tx = false) :
    monthCreditSum (tx :: rest) k = monthCreditSum rest k := by
  simp [monthCreditSum, List.filter_cons, h]

lemma monthDebitSum_cons_false {tx : Transaction} {rest : List Transaction} {k : Str}
    (h : keptDebitIn k tx = false) :
    monthDebitSum (tx :: rest) k = monthDebitSum rest k := by
  simp [monthDebitSum, List.filter_cons, h]

lemma monthCreditSum_cons_true {tx : Transaction} {rest : List Transaction} {k : Str}
    (h : keptCreditIn k tx = true) :
    monthCreditSum (tx :: rest) k = tx.amountSingleColumn + monthCreditSum rest k := by
  simp [monthCreditSum, List.filter_cons, h]

lemma monthDebitSum_cons_true {tx : Transaction} {rest : List Transaction} {k : Str}
    (h : keptDebitIn k tx = true) :
    monthDebitSum (tx :: rest) k = |tx.amountSingleColumn| + monthDebitSum rest k := by
  simp [monthDebitSum, List.filter_cons, h]

/-- Fold invariant of calculateMonthlyData, key already present: the
entry accumulates the exact credit and absolute-debit sums of the
remaining transactions of that month. -/
lemma monthFold_lookup_some :
    ∀ (txs : List Transaction) (init : List (Str × MonthAcc)) (k : Str) (v : MonthAcc),
      lookupA init k = some v →
      lookupA (txs.foldl monthStep init) k =
        some ⟨v.income + monthCreditSum txs k, v.expenses + monthDebitSum txs k⟩ := by
  intro txs
  induction txs with
  | nil =>
    intro init k v h
    simp [monthCreditSum, monthDebitSum, h]
  | cons tx rest ih =>
    intro init k v h
    simp only [List.foldl_cons]
    by_cases hrev : isReversedOrReverse tx
    · rw [monthStep_skip init tx hrev, ih init k v h,
        monthCreditSum_cons_false (keptCreditIn_false_of_rev hrev),
        monthDebitSum_cons_false (keptDebitIn_false_of_rev hrev)]
    · have hrev2 : isReversedOrReverse tx = false := by simpa using hrev
      rw [monthStep_notRev init tx hrev2]
      by_cases hm : getYearMonth tx.effectiveDateTime = k
      · rw [hm, h]
        cases hcd : tx.creditDebit with
        | CREDIT =>
          have hkc : keptCreditIn k tx = true := by
            simp [keptCreditIn, keptIn, hrev2, hm, hcd]
          have hkd : keptDebitIn k tx = false := by
            simp [keptDebitIn, keptIn, hcd]
          rw [if_pos rfl]
          rw [ih _ k _ (lookupA_setA_self init k _)]
          rw [monthCreditSum_cons_true hkc, monthDebitSum_cons_false hkd]
          simp only [Option.getD_some, Option.some.injEq, MonthAcc.mk.injEq]
          constructor <;> ring_nf
        | DEBIT =>
          have hkc : keptCreditIn k tx = false := by
            simp [keptCreditIn, keptIn, hcd]
          have hkd : keptDebitIn k tx = true := by
            simp [keptDebitIn, keptIn, hrev2, hm, hcd]
          rw [if_neg (by simp)]
          rw [ih _ k _ (lookupA_setA_self init k _)]
          rw [monthCreditSum_cons_false hkc, monthDebitSum_cons_true hkd]
          simp only [Option.getD_some, Option.some.injEq, MonthAcc.mk.injEq]
          constructor <;> ring_nf
      · have hkc : keptCreditIn k tx = false := by simp [keptCreditIn, keptIn, hm]
        have hkd : keptDebitIn k tx = false := by simp [keptDebitIn, keptIn, hm]
        rw [ih _ k v (by rw [lookupA_setA_ne _ _ _ _ hm]; exact h),
          monthCreditSum_cons_false hkc, monthDebitSum_cons_false hkd]

/-- Fold invariant of calculateMonthlyData, key absent: the key appears
iff some kept transaction has that month, and then carries exactly the
credit and absolute-debit sums of that month. -/
lemma monthFold_lookup_none :
    ∀ (txs : List Transaction) (init : List (Str × MonthAcc)) (k : Str),
      lookupA init k = none →
      lookupA (txs.foldl monthStep init) k =
        (if txs.any (keptIn k) then some ⟨monthCreditSum txs k, monthDebitSum txs k⟩
        else none) := by
  intro txs
  induction txs with
  | nil =>
    intro init k h
    simp [h]
  | cons tx rest ih =>
    intro init k h
    simp only [List.foldl_cons]
    by_cases hrev : isReversedOrReverse tx
    · have hkept : keptIn k tx = false := by simp [keptIn, hrev]
      rw [monthStep_skip init tx hrev, ih init k h,
        monthCreditSum_cons_false (keptCreditIn_false_of_rev hrev),
        monthDebitSum_cons_false (keptDebitIn_false_of_rev hrev)]
      simp [List.any_cons, hkept]
    · have hrev2 : isReversedOrReverse tx = false := by simpa using hrev
      rw [monthStep_notRev init tx hrev2]
      by_cases hm : getYearMonth tx.effectiveDateTime = k
      · have hkept : keptIn k tx = true := by simp [keptIn, hrev2, hm]
        rw [hm, h]
        cases hcd : tx.creditDebit with
        | CREDIT =>
          have hkc : keptCreditIn k tx = true := by
            simp [keptCreditIn, keptIn, hrev2, hm, hcd]
          have hkd : keptDebitIn k tx = false := by
            simp [keptDebitIn, keptIn, hcd]
          rw [if_pos rfl]
          rw [monthFold_lookup_some rest _ k _ (lookupA_setA_self init k _)]
          rw [monthCreditSum_cons_true hkc, monthDebitSum_cons_false hkd]
          simp [List.any_cons, hkept]
        | DEBIT =>
          have hkc : keptCreditIn k tx = false := by
            simp [keptCreditIn, keptIn, hcd]
          have hkd : keptDebitIn k tx = true := by
            simp [keptDebitIn, keptIn, hrev2, hm, hcd]
          rw [if_neg (by simp)]
          rw [monthFold_lookup_some rest _ k _ (lookupA_setA_self init k _)]
          rw [monthCreditSum_cons_false hkc, monthDebitSum_cons_true hkd]
          simp [List.any_cons, hkept]
      · have hkept : keptIn k tx = false := by simp [keptIn, hm]
        have hkc : keptCreditIn k tx = false := by simp [keptCreditIn, keptIn, hm]
        have hkd : keptDebitIn k tx = false := by simp [keptDebitIn, keptIn, hm]
        rw [ih _ k (by rw [lookupA_setA_ne _ _ _ _ hm]; exact h),
          monthCreditSum_cons_false hkc, monthDebitSum_cons_false hkd]
        simp [List.any_cons, hkept]

/-- The months present in the folded monthly map. -/
lemma monthFold_keys :
    ∀ (txs : List Transaction) (init : List (Str × MonthAcc)) (k : Str),
      k ∈ (txs.foldl monthStep init).map Prod.fst ↔
        (k ∈ init.map Prod.fst ∨ txs.any (keptIn k) = true) := by
  intro txs
  induction txs with
  | nil =>
    intro init k
    simp only [List.foldl_nil, List.any_nil, Bool.false_eq_true, or_false]
  | cons tx rest ih =>
    intro init k
    simp only [List.foldl_cons]
    by_cases hrev : isReversedOrReverse tx
    · have hkept : keptIn k tx = false := by simp [keptIn, hrev]
      rw [monthStep_skip init tx hrev, ih init k]
      simp only [List.any_cons, hkept, Bool.false_or]
    · have hrev2 : isReversedOrReverse tx = false := by simpa using hrev
      rw [monthStep_notRev init tx hrev2]
      rw [ih (setA init (getYearMonth tx.effectiveDateTime)
        (if tx.creditDebit = CreditDebit.CREDIT then
          { (lookupA init (getYearMonth tx.effectiveDateTime)).getD ⟨0, 0⟩ with
              income :=
                ((lookupA init (getYearMonth tx.effectiveDateTime)).getD ⟨0, 0⟩).income +
                  tx.amountSingleColumn }
        else
          { (lookupA init (getYearMonth tx.effectiveDateTime)).getD ⟨0, 0⟩ with
              expenses :=
                ((lookupA init (getYearMonth tx.effectiveDateTime)).getD ⟨0, 0⟩).expenses +
                  |tx.amountSingleColumn| })) k]
      rw [mem_keys_setA]
      have hkept : keptIn k tx = true ↔ getYearMonth tx.effectiveDateTime = k := by
        simp [keptIn, hrev2]
      simp only [List.any_cons, Bool.or_eq_true, hkept]
      constructor
      · rintro ((h | h) | h)
        · exact Or.inl h
        · exact Or.inr (Or.inl h.symm)
        · exact Or.inr (Or.inr h)
      · rintro (h | h | h)
        · exact Or.inl (Or.inl h)
        · exact Or.inl (Or.inr h.symm)
        · exact Or.inr h

/-- The folded monthly map has no duplicate keys. -/
lemma monthFold_nodup :
    ∀ (txs : List Transaction) (init : List (Str × MonthAcc)),
      (init.map Prod.fst).Nodup → ((txs.foldl monthStep init).map Prod.fst).Nodup := by
  intro txs
  induction txs with
  | nil => intro init h; exact h
  | cons tx rest ih =>
    intro init h
    simp only [List.foldl_cons]
    by_cases hrev : isReversedOrReverse tx
    · rw [monthStep_skip init tx hrev]
      exact ih init h
    · have hrev2 : isReversedOrReverse tx = false := by simpa using hrev
      rw [monthStep_notRev init tx hrev2]
      exact ih _ (nodup_keys_setA init _ _ h)

instance : IsTotal MonthlyData mdLe :=
  ⟨fun a b => strLeB_total a.month b.month⟩

instance : IsTrans MonthlyData mdLe :=
  ⟨fun _ _ _ hab hbc => strLeB_trans hab hbc⟩

/-- Every monthly summary row comes from an entry of the folded map. -/
lemma monthlyRow_mem (txs : List Transaction) (row : MonthlyData)
    (h : row ∈ calculateMonthlyData txs) :
    ∃ p : Str × MonthAcc, p ∈ txs.foldl monthStep [] ∧
      row = { month := p.1, income := round2 p.2.income, expenses := round2 p.2.expenses,
              net := round2 (p.2.income - p.2.expenses) } := by
  simp only [calculateMonthlyData] at h
  have h2 := (List.perm_insertionSort mdLe _).mem_iff.mp h
  obtain ⟨p, hp, heq⟩ := List.mem_map.mp h2
  exact ⟨p, hp, heq.symm⟩

/-- Every monthly summary row carries the rounded exact sums of its
month. -/
lemma monthlyData_fields (txs : List Transaction) (row : MonthlyData)
    (h : row ∈ calculateMonthlyData txs) :
    row.income = round2 (monthCreditSum txs row.month) ∧
    row.expenses = round2 (monthDebitSum txs row.month) ∧
    row.net = round2 (monthCreditSum txs row.month - monthDebitSum txs row.month) := by
  obtain ⟨p, hp, hrow⟩ := monthlyRow_mem txs row h
  have hnd : ((txs.foldl monthStep ([] : List (Str × MonthAcc))).map Prod.fst).Nodup :=
    monthFold_nodup txs [] (by simp)
  have hlook : lookupA (txs.foldl monthStep []) p.1 = some p.2 :=
    lookupA_eq_of_mem _ p.1 p.2 hnd hp
  have hinv := monthFold_lookup_none txs [] p.1 rfl
  rw [hlook] at hinv
  by_cases hany : txs.any (keptIn p.1) = true
  · rw [if_pos hany] at hinv
    injection hinv with hv
    subst hrow
    rw [hv]
    exact ⟨rfl, rfl, rfl⟩
  · rw [if_neg hany] at hinv
    exact absurd hinv (by simp)

/-- The months of the monthly summary are a permutation of the folded
map keys. -/
lemma monthlyData_months_perm (txs : List Transaction) :
    ((calculateMonthlyData txs).map MonthlyData.month).Perm
      ((txs.foldl monthStep []).map Prod.fst) := by
  simp only [calculateMonthlyData]
  have hp := (List.perm_insertionSort mdLe
    ((txs.foldl monthStep []).map fun p =>
      ({ month := p.1, income := round2 p.2.income, expenses := round2 p.2.expenses,
         net := round2 (p.2.income - p.2.expenses) } : MonthlyData))).map MonthlyData.month
  simpa [List.map_map, Function.comp] using hp

/-- A month key appears in the monthly summary iff some kept transaction
has that month. -/
lemma monthlyData_month_mem (txs : List Transaction) (k : Str) :
    k ∈ (calculateMonthlyData txs).map MonthlyData.month ↔
      ∃ tx, tx ∈ txs ∧ isReversedOrReverse tx = false ∧
        getYearMonth tx.effectiveDateTime = k := by
  rw [(monthlyData_months_perm txs).mem_iff, monthFold_keys txs [] k]
  simp only [List.map_nil, List.not_mem_nil, false_or, List.any_eq_true]
  constructor
  · rintro ⟨tx, htx, hk⟩
    refine ⟨tx, htx, ?_, ?_⟩
    · have := hk
      simp [keptIn, Bool.and_eq_true, Bool.not_eq_true'] at this
      exact this.1
    · have := hk
      simp [keptIn, Bool.and_eq_true] at this
      exact this.2
  · rintro ⟨tx, htx, h1, h2⟩
    exact ⟨tx, htx, by simp [keptIn, h1, h2]⟩

/-- The monthly summary never repeats a month key. -/
lemma monthlyData_months_nodup (txs : List Transaction) :
    ((calculateMonthlyData txs).map MonthlyData.month).Nodup :=
  (monthlyData_months_perm txs).nodup_iff.mpr (monthFold_nodup txs [] (by simp))

/-- The monthly summary is strictly ascending in the month key. -/
lemma monthlyData_sorted (txs : List Transaction) :
    List.Pairwise (fun a b : MonthlyData => strLtB a.month b.month = true)
      (calculateMonthlyData txs) := by
  have hsorted : List.Pairwise mdLe (calculateMonthlyData txs) := by
    simp only [calculateMonthlyData]
    exact List.sorted_insertionSort mdLe _
  have hnd := monthlyData_months_nodup txs
  have hne : List.Pairwise (fun a b : MonthlyData => a.month ≠ b.month)
      (calculateMonthlyData txs) := List.pairwise_map.mp hnd
  exact (hsorted.and hne).imp fun h => strLtB_of_le_of_ne h.1 h.2

lemma centMul_add {a b : ℚ} (ha : CentMul a) (hb : CentMul b) : CentMul (a + b) := by
  obtain ⟨m, rfl⟩ := ha
  obtain ⟨n, rfl⟩ := hb
  exact ⟨m + n, by push_cast; ring⟩

lemma centMul_abs {a : ℚ} (ha : CentMul a) : CentMul |a| := by
  obtain ⟨n, rfl⟩ := ha
  refine ⟨|n|, ?_⟩
  rw [abs_div, Int.cast_abs]
  norm_num

lemma centMul_sub {a b : ℚ} (ha : CentMul a) (hb : CentMul b) : CentMul (a - b) := by
  obtain ⟨m, rfl⟩ := ha
  obtain ⟨n, rfl⟩ := hb
  exact ⟨m - n, by push_cast; ring⟩

lemma centMul_sum (l : List ℚ) (h : ∀ q ∈ l, CentMul q) : CentMul l.sum := by
  induction l with
  | nil => exact ⟨0, by norm_num⟩
  | cons x xs ih =>
    rw [List.sum_cons]
    exact centMul_add (h x (by simp)) (ih fun q hq => h q (by simp [hq]))

/-- Rounding is the identity on whole-cent quantities. -/
lemma round2_eq_self {q : ℚ} (h : CentMul q) : round2 q = q := by
  obtain ⟨n, rfl⟩ := h
  unfold round2 jsRound
  rw [div_mul_cancel₀ _ (by norm_num : (100 : ℚ) ≠ 0)]
  rw [add_comm, Int.floor_add_int]
  norm_num

/-- Every rounded value is a whole number of cents. -/
lemma round2_centMul (x : ℚ) : CentMul (round2 x) := ⟨jsRound (x * 100), rfl⟩

/-- Re-rounding an output is a no-op. -/
lemma round2_idem (x : ℚ) : round2 (round2 x) = round2 x :=
  round2_eq_self (round2_centMul x)

/-- On non-negative quantities, Math.round ties agree with ties away
from zero. -/
lemma round2_eq_specRound2_of_nonneg {x : ℚ} (h : 0 ≤ x) : round2 x = specRound2 x := by
  unfold round2 specRound2 specAwayRound jsRound
  rw [if_pos (mul_nonneg h (by norm_num))]

lemma centMul_monthCreditSum (txs : List Transaction) (k : Str)
    (h : ∀ tx ∈ txs, CentMul tx.amountSingleColumn) : CentMul (monthCreditSum txs k) := by
  apply centMul_sum
  intro q hq
  obtain ⟨tx, htx, rfl⟩ := List.mem_map.mp hq
  exact h tx (List.mem_filter.mp htx).1

lemma centMul_monthDebitSum (txs : List Transaction) (k : Str)
    (h : ∀ tx ∈ txs, CentMul tx.amountSingleColumn) : CentMul (monthDebitSum txs k) := by
  apply centMul_sum
  intro q hq
  obtain ⟨tx, htx, rfl⟩ := List.mem_map.mp hq
  exact centMul_abs (h tx (List.mem_filter.mp htx).1)

/-- The two category classifiers agree away from the HOST_FEE category. -/
lemma classify_eq_of_ne (category description : Str) (h : category ≠ str "HOST_FEE") :
    classifyExpenseCategoryFull category description =
      classifyExpenseCategory category description := by
  unfold classifyExpenseCategoryFull classifyExpenseCategory
  have hb : (category == str "HOST_FEE") = false := by
    simp only [beq_eq_false_iff_ne, ne_eq]
    exact h
  simp only [hb, Bool.false_eq_true, if_false]

/-- The two category loop bodies agree on a transaction that is not a
kept HOST_FEE debit. -/
lemma categoryStep_eq_of (tx : Transaction)
    (h : isReversedOrReverse tx = true ∨ ¬(tx.creditDebit = CreditDebit.DEBIT) ∨
      effectiveCategory tx ≠ str "HOST_FEE") :
    ∀ acc, categoryStepFull acc tx = categoryStep acc tx := by
  intro acc
  rcases h with h | h | h
  · simp [categoryStepFull, categoryStep, h]
  · simp [categoryStepFull, categoryStep, h]
  · simp only [categoryStepFull, categoryStep,
      classify_eq_of_ne (effectiveCategory tx) (lowerStr tx.description) h]

/-- The runway current balance is the sum of all monthly nets. -/
lemma runwayCurrentBalance_eq (txs : List Transaction) :
    runwayCurrentBalance txs = ((calculateMonthlyData txs).map MonthlyData.net).sum := by
  unfold runwayCurrentBalance
  rw [foldl_add_eq MonthlyData.net _ 0, zero_add]

lemma keySum_cons_true {keep : Transaction → Bool} {keyOf : Transaction → Str}
    {val : Transaction → ℚ} {tx : Transaction} {rest : List Transaction} {k : Str}
    (h : keyedFor keep keyOf k tx = true) :
    keySum keep keyOf val (tx :: rest) k = val tx + keySum keep keyOf val rest k := by
  simp [keySum, List.filter_cons, h]

lemma keySum_cons_false {keep : Transaction → Bool} {keyOf : Transaction → Str}
    {val : Transaction → ℚ} {tx : Transaction} {rest : List Transaction} {k : Str}
    (h : keyedFor keep keyOf k tx = false) :
    keySum keep keyOf val (tx :: rest) k = keySum keep keyOf val rest k := by
  simp [keySum, List.filter_cons, h]

lemma keyCount_cons_true {keep : Transaction → Bool} {keyOf : Transaction → Str}
    {tx : Transaction} {rest : List Transaction} {k : Str}
    (h : keyedFor keep keyOf k tx = true) :
    keyCount keep keyOf (tx :: rest) k = keyCount keep keyOf rest k + 1 := by
  simp [keyCount, List.filter_cons, h]

lemma keyCount_cons_false {keep : Transaction → Bool} {keyOf : Transaction → Str}
    {tx : Transaction} {rest : List Transaction} {k : Str}
    (h : keyedFor keep keyOf k tx = false) :
    keyCount keep keyOf (tx :: rest) k = keyCount keep keyOf rest k := by
  simp [keyCount, List.filter_cons, h]

lemma acStep_kept (keep : Transaction → Bool) (keyOf : Transaction → Str)
    (val : Transaction → ℚ) (acc : List (Str × AmountCount)) (tx : Transaction)
    (h : keep tx = true) :
    acStep keep keyOf val acc tx =
      setA acc (keyOf tx)
        ⟨((lookupA acc (keyOf tx)).getD ⟨0, 0⟩).amount + val tx,
          ((lookupA acc (keyOf tx)).getD ⟨0, 0⟩).count + 1⟩ := by
  simp [acStep, h]

lemma acStep_notKept (keep : Transaction → Bool) (keyOf : Transaction → Str)
    (val : Transaction → ℚ) (acc : List (Str × AmountCount)) (tx : Transaction)
    (h : keep tx = false) :
    acStep keep keyOf val acc tx = acc := by
  simp [acStep, h]

/-- Fold invariant of the breakdown aggregators, key present: the entry
accumulates the exact value sum and count of the remaining transactions
of that key. -/
lemma acFold_lookup_some (keep : Transaction → Bool) (keyOf : Transaction → Str)
    (val : Transaction → ℚ) :
    ∀ (txs : List Transaction) (init : List (Str × AmountCount)) (k : Str)
      (v : AmountCount),
      lookupA init k = some v →
      lookupA (txs.foldl (acStep keep keyOf val) init) k =
        some ⟨v.amount + keySum keep keyOf val txs k,
          v.count + keyCount keep keyOf txs k⟩ := by
  intro txs
  induction txs with
  | nil =>
    intro init k v h
    simp [keySum, keyCount, h]
  | cons tx rest ih =>
    intro init k v h
    simp only [List.foldl_cons]
    by_cases hkeep : keep tx = true
    · rw [acStep_kept keep keyOf val init tx hkeep]
      by_cases hkey : keyOf tx = k
      · have hkf : keyedFor keep keyOf k tx = true := by simp [keyedFor, hkeep, hkey]
        rw [hkey, h]
        rw [ih _ k _ (lookupA_setA_self init k _)]
        rw [keySum_cons_true hkf, keyCount_cons_true hkf]
        simp only [Option.getD_some, Option.some.injEq, AmountCount.mk.injEq]
        constructor
        · ring
        · omega
      · have hkf : keyedFor keep keyOf k tx = false := by simp [keyedFor, hkey]
        rw [ih _ k v (by rw [lookupA_setA_ne _ _ _ _ hkey]; exact h),
          keySum_cons_false hkf, keyCount_cons_false hkf]
    · have hk2 : keep tx = false := by simpa using hkeep
      have hkf : keyedFor keep keyOf k tx = false := by simp [keyedFor, hk2]
      rw [acStep_notKept keep keyOf val init tx hk2, ih init k v h,
        keySum_cons_false hkf, keyCount_cons_false hkf]

/-- Fold invariant of the breakdown aggregators, key absent: the key
appears iff some kept transaction is bucketed under it, and then carries
its exact value sum and count. -/
lemma acFold_lookup_none (keep : Transaction → Bool) (keyOf : Transaction → Str)
    (val : Transaction → ℚ) :
    ∀ (txs : List Transaction) (init : List (Str × AmountCount)) (k : Str),
      lookupA init k = none →
      lookupA (txs.foldl (acStep keep keyOf val) init) k =
        (if txs.any (keyedFor keep keyOf k) then
          some ⟨keySum keep keyOf val txs k, keyCount keep keyOf txs k⟩
        else none) := by
  intro txs
  induction txs with
  | nil =>
    intro init k h
    simp [h]
  | cons tx rest ih =>
    intro init k h
    simp only [List.foldl_cons]
    by_cases hkeep : keep tx = true
    · rw [acStep_kept keep keyOf val init tx hkeep]
      by_cases hkey : keyOf tx = k
      · have hkf : keyedFor keep keyOf k tx = true := by simp [keyedFor, hkeep, hkey]
        rw [hkey, h]
        rw [acFold_lookup_some keep keyOf val rest _ k _ (lookupA_setA_self init k _)]
        rw [keySum_cons_true hkf, keyCount_cons_true hkf]
        simp [List.any_cons, hkf]
        omega
      · have hkf : keyedFor keep keyOf k tx = false := by simp [keyedFor, hkey]
        rw [ih _ k (by rw [lookupA_setA_ne _ _ _ _ hkey]; exact h),
          keySum_cons_false hkf, keyCount_cons_false hkf]
        simp [List.any_cons, hkf]
    · have hk2 : keep tx = false := by simpa using hkeep
      have hkf : keyedFor keep keyOf k tx = false := by simp [keyedFor, hk2]
      rw [acStep_notKept keep keyOf val init tx hk2, ih init k h,
        keySum_cons_false hkf, keyCount_cons_false hkf]
      simp [List.any_cons, hkf]

/-- The breakdown folds never duplicate a key. -/
lemma acFold_nodup (keep : Transaction → Bool) (keyOf : Transaction → Str)
    (val : Transaction → ℚ) :
    ∀ (txs : List Transaction) (init : List (Str × AmountCount)),
      (init.map Prod.fst).Nodup →
      ((txs.foldl (acStep keep keyOf val) init).map Prod.fst).Nodup := by
  intro txs
  induction txs with
  | nil => intro init h; exact h
  | cons tx rest ih =>
    intro init h
    simp only [List.foldl_cons]
    by_cases hkeep : keep tx = true
    · rw [acStep_kept keep keyOf val init tx hkeep]
      exact ih _ (nodup_keys_setA init _ _ h)
    · rw [acStep_notKept keep keyOf val init tx (by simpa using hkeep)]
      exact ih init h

/-- Every breakdown row materialized from an acStep fold carries the
rounded exact value sum and the exact count of its key. -/
lemma toSourceBreakdown_fields (keep : Transaction → Bool) (keyOf : Transaction → Str)
    (val : Transaction → ℚ) (txs : List Transaction) (row : SourceBreakdown)
    (h : row ∈ toSourceBreakdown (txs.foldl (acStep keep keyOf val) [])) :
    row.amount = round2 (keySum keep keyOf val txs row.source) ∧
    row.count = keyCount keep keyOf txs row.source := by
  simp only [toSourceBreakdown] at h
  have h2 := (List.perm_insertionSort sbDesc _).mem_iff.mp h
  obtain ⟨p, hp, heq⟩ := List.mem_map.mp h2
  have hnd := acFold_nodup keep keyOf val txs [] (by simp)
  have hlook := lookupA_eq_of_mem _ p.1 p.2 hnd hp
  have hinv := acFold_lookup_none keep keyOf val txs [] p.1 rfl
  rw [hlook] at hinv
  by_cases hany : txs.any (keyedFor keep keyOf p.1) = true
  · rw [if_pos hany] at hinv
    injection hinv with hv
    rw [← heq, hv]
    exact ⟨rfl, rfl⟩
  · rw [if_neg hany] at hinv
    exact absurd hinv (by simp)

lemma incomeSources_foldl_eq (txs : List Transaction) :
    txs.foldl incomeSourcesStep [] =
      txs.foldl (acStep keepCredit counterpartyOf txAmount) [] := by
  apply List.foldl_ext
  intro acc tx _
  by_cases hrev : isReversedOrReverse tx
  · simp [incomeSourcesStep, acStep, keepCredit, hrev]
  · have hrev2 : isReversedOrReverse tx = false := by simpa using hrev
    by_cases hc : tx.creditDebit = CreditDebit.CREDIT
    · simp [incomeSourcesStep, acStep, keepCredit, txAmount, hrev2, hc]
    · simp [incomeSourcesStep, acStep, keepCredit, hrev2, hc]

lemma expenses_foldl_eq (txs : List Transaction) :
    txs.foldl expensesStep [] =
      txs.foldl (acStep keepDebit counterpartyOf txAbsAmount) [] := by
  apply List.foldl_ext
  intro acc tx _
  by_cases hrev : isReversedOrReverse tx
  · simp [expensesStep, acStep, keepDebit, hrev]
  · have hrev2 : isReversedOrReverse tx = false := by simpa using hrev
    by_cases hc : tx.creditDebit = CreditDebit.DEBIT
    · simp [expensesStep, acStep, keepDebit, txAbsAmount, hrev2, hc]
    · simp [expensesStep, acStep, keepDebit, hrev2, hc]

lemma category_foldl_eq (txs : List Transaction) :
    txs.foldl categoryStep [] =
      txs.foldl (acStep keepDebit categoryOf txAbsAmount) [] := by
  apply List.foldl_ext
  intro acc tx _
  by_cases hrev : isReversedOrReverse tx
  · simp [categoryStep, acStep, keepDebit, hrev]
  · have hrev2 : isReversedOrReverse tx = false := by simpa using hrev
    by_cases hc : tx.creditDebit = CreditDebit.DEBIT
    · simp [categoryStep, acStep, keepDebit, categoryOf, txAbsAmount, hrev2, hc]
    · simp [categoryStep, acStep, keepDebit, hrev2, hc]

lemma categoryFull_foldl_eq (txs : List Transaction) :
    txs.foldl categoryStepFull [] =
      txs.foldl (acStep keepDebit categoryOfFull txAbsAmount) [] := by
  apply List.foldl_ext
  intro acc tx _
  by_cases hrev : isReversedOrReverse tx
  · simp [categoryStepFull, acStep, keepDebit, hrev]
  · have hrev2 : isReversedOrReverse tx = false := by simpa using hrev
    by_cases hc : tx.creditDebit = CreditDebit.DEBIT
    · simp [categoryStepFull, acStep, keepDebit, categoryOfFull, txAbsAmount, hrev2, hc]
    · simp [categoryStepFull, acStep, keepDebit, hrev2, hc]

/-- The contribution loop body is the pair of the recurring and one-time
breakdown loop bodies. -/
lemma contributionsStep_eq (acc : List (Str × AmountCount) × List (Str × AmountCount))
    (tx : Transaction) :
    contributionsStep acc tx =
      (acStep keepContribRec counterpartyOf txAmount acc.1 tx,
       acStep keepContribOne counterpartyOf txAmount acc.2 tx) := by
  obtain ⟨a, b⟩ := acc
  by_cases hrev : isReversedOrReverse tx
  · simp [contributionsStep, acStep, keepContribRec, keepContribOne, keepContrib,
      keepCredit, hrev]
  · have hrev2 : isReversedOrReverse tx = false := by simpa using hrev
    by_cases hc : tx.creditDebit = CreditDebit.CREDIT
    · by_cases hk : tx.kind = str "CONTRIBUTION"
      · by_cases hr : isRecurringContribution tx = true
        · simp [contributionsStep, acStep, keepContribRec, keepContribOne, keepContrib,
            keepCredit, txAmount, hrev2, hc, hk, hr]
        · have hr2 : isRecurringContribution tx = false := by simpa using hr
          simp [contributionsStep, acStep, keepContribRec, keepContribOne, keepContrib,
            keepCredit, txAmount, hrev2, hc, hk, hr2]
      · simp [contributionsStep, acStep, keepContribRec, keepContribOne, keepContrib,
          keepCredit, hrev2, hc, hk]
    · simp [contributionsStep, acStep, keepContribRec, keepContribOne, keepContrib,
        keepCredit, hrev2, hc]

lemma contributionsFold_eq :
    ∀ (txs : List Transaction) (a b : List (Str × AmountCount)),
      txs.foldl contributionsStep (a, b) =
        (txs.foldl (acStep keepContribRec counterpartyOf txAmount) a,
         txs.foldl (acStep keepContribOne counterpartyOf txAmount) b) := by
  intro txs
  induction txs with
  | nil => intro a b; rfl
  | cons tx rest ih =>
    intro a b
    simp only [List.foldl_cons, contributionsStep_eq]
    exact ih _ _

/-- Every income-source row carries the rounded exact credit sum of its
counterparty. -/
lemma analyzeIncomeSources_fields (txs : List Transaction) (row : SourceBreakdown)
    (h : row ∈ analyzeIncomeSources txs) :
    row.amount = round2 (keySum keepCredit counterpartyOf txAmount txs row.source) ∧
    row.count = keyCount keepCredit counterpartyOf txs row.source := by
  simp only [analyzeIncomeSources] at h
  rw [incomeSources_foldl_eq] at h
  exact toSourceBreakdown_fields _ _ _ txs row h

/-- Every expense row carries the rounded exact absolute-debit sum of
its recipient. -/
lemma analyzeExpenses_fields (txs : List Transaction) (row : ExpenseBreakdown)
    (h : row ∈ analyzeExpenses txs) :
    row.amount = round2 (keySum keepDebit counterpartyOf txAbsAmount txs row.recipient) ∧
    row.count = keyCount keepDebit counterpartyOf txs row.recipient := by
  simp only [analyzeExpenses] at h
  rw [expenses_foldl_eq] at h
  have h2 := (List.perm_insertionSort ebDesc _).mem_iff.mp h
  obtain ⟨p, hp, heq⟩ := List.mem_map.mp h2
  have hnd := acFold_nodup keepDebit counterpartyOf txAbsAmount txs [] (by simp)
  have hlook := lookupA_eq_of_mem _ p.1 p.2 hnd hp
  have hinv := acFold_lookup_none keepDebit counterpartyOf txAbsAmount txs [] p.1 rfl
  rw [hlook] at hinv
  by_cases hany : txs.any (keyedFor keepDebit counterpartyOf p.1) = true
  · rw [if_pos hany] at hinv
    injection hinv with hv
    rw [← heq, hv]
    exact ⟨rfl, rfl⟩
  · rw [if_neg hany] at hinv
    exact absurd hinv (by simp)

/-- Every abridged category row carries the rounded exact absolute-debit
sum of its mapped category. -/
lemma analyzeExpensesByCategory_fields (txs : List Transaction) (row : SourceBreakdown)
    (h : row ∈ analyzeExpensesByCategory txs) :
    row.amount = round2 (keySum keepDebit categoryOf txAbsAmount txs row.source) ∧
    row.count = keyCount keepDebit categoryOf txs row.source := by
  simp only [analyzeExpensesByCategory] at h
  rw [category_foldl_eq] at h
  exact toSourceBreakdown_fields _ _ _ txs row h

/-- Every full-variant category row carries the rounded exact
absolute-debit sum of its mapped category. -/
lemma analyzeExpensesByCategoryFull_fields (txs : List Transaction)
    (row : SourceBreakdown) (h : row ∈ analyzeExpensesByCategoryFull txs) :
    row.amount = round2 (keySum keepDebit categoryOfFull txAbsAmount txs row.source) ∧
    row.count = keyCount keepDebit categoryOfFull txs row.source := by
  simp only [analyzeExpensesByCategoryFull] at h
  rw [categoryFull_foldl_eq] at h
  exact toSourceBreakdown_fields _ _ _ txs row h

lemma contributions_contributors_eq (txs : List Transaction) :
    (analyzeContributions txs).recurring.contributors =
      toSourceBreakdown (txs.foldl (acStep keepContribRec counterpartyOf txAmount) []) ∧
    (analyzeContributions txs).oneTime.contributors =
      toSourceBreakdown (txs.foldl (acStep keepContribOne counterpartyOf txAmount) []) := by
  simp only [analyzeContributions, contributionsFold_eq txs [] []]
  exact ⟨trivial, trivial⟩

/-- Every recurring-contributor row carries the rounded exact recurring
sum of its counterparty. -/
lemma analyzeContributions_rec_fields (txs : List Transaction) (row : SourceBreakdown)
    (h : row ∈ (analyzeContributions txs).recurring.contributors) :
    row.amount = round2 (keySum keepContribRec counterpartyOf txAmount txs row.source) := by
  rw [(contributions_contributors_eq txs).1] at h
  exact (toSourceBreakdown_fields _ _ _ txs row h).1

/-- Every one-time-contributor row carries the rounded exact one-time
sum of its counterparty. -/
lemma analyzeContributions_one_fields (txs : List Transaction) (row : SourceBreakdown)
    (h : row ∈ (analyzeContributions txs).oneTime.contributors) :
    row.amount = round2 (keySum keepContribOne counterpartyOf txAmount txs row.source) := by
  rw [(contributions_contributors_eq txs).2] at h
  exact (toSourceBreakdown_fields _ _ _ txs row h).1

/-- The roll-up amounts of analyzeContributions are the rounded sums of
the contributor amounts. -/
lemma contributions_side_amounts (txs : List Transaction) :
    (analyzeContributions txs).recurring.amount =
      round2 ((((analyzeContributions txs).recurring.contributors).map
        SourceBreakdown.amount).sum) ∧
    (analyzeContributions txs).oneTime.amount =
      round2 ((((analyzeContributions txs).oneTime.contributors).map
        SourceBreakdown.amount).sum) := by
  simp only [analyzeContributions]
  constructor
  · rw [sumAmount_eq]
  · rw [sumAmount_eq]

lemma mrcStep_skip (acc : List (Str × RecOneAcc)) (tx : Transaction)
    (h : isReversedOrReverse tx = true) : monthlyRecurringStep acc tx = acc := by
  simp [monthlyRecurringStep, h]

lemma mrcStep_notCredit (acc : List (Str × RecOneAcc)) (tx : Transaction)
    (h : ¬(tx.creditDebit = CreditDebit.CREDIT)) : monthlyRecurringStep acc tx = acc := by
  simp [monthlyRecurringStep, h]

lemma mrcStep_notContrib (acc : List (Str × RecOneAcc)) (tx : Transaction)
    (h : ¬(tx.kind = str "CONTRIBUTION")) : monthlyRecurringStep acc tx = acc := by
  simp [monthlyRecurringStep, h]

lemma mrcStep_kept (acc : List (Str × RecOneAcc)) (tx : Transaction)
    (hrev : isReversedOrReverse tx = false) (hc : tx.creditDebit = CreditDebit.CREDIT)
    (hk : tx.kind = str "CONTRIBUTION") :
    monthlyRecurringStep acc tx =
      setA acc (mKey tx)
        (if isRecurringContribution tx then
          { (lookupA acc (mKey tx)).getD ⟨0, 0⟩ with
              recurring := ((lookupA acc (mKey tx)).getD ⟨0, 0⟩).recurring +
                tx.amountSingleColumn }
        else
          { (lookupA acc (mKey tx)).getD ⟨0, 0⟩ with
              oneTime := ((lookupA acc (mKey tx)).getD ⟨0, 0⟩).oneTime +
                tx.amountSingleColumn }) := by
  unfold monthlyRecurringStep mKey
  rw [if_neg (by simp [hrev]), if_neg (by simp [hc]), if_neg (by simp [hk])]

/-- Fold invariant of the monthly recurring map, key present. -/
lemma mrcFold_lookup_some :
    ∀ (txs : List Transaction) (init : List (Str × RecOneAcc)) (k : Str) (v : RecOneAcc),
      lookupA init k = some v →
      lookupA (txs.foldl monthlyRecurringStep init) k =
        some ⟨v.recurring + monthRecSum txs k, v.oneTime + monthOneSum txs k⟩ := by
  intro txs
  induction txs with
  | nil =>
    intro init k v h
    simp [monthRecSum, monthOneSum, keySum, h]
  | cons tx rest ih =>
    intro init k v h
    simp only [List.foldl_cons]
    by_cases hrev : isReversedOrReverse tx
    · have hkr : keyedFor keepContribRec mKey k tx = false := by
        simp [keyedFor, keepContribRec, keepContrib, keepCredit, hrev]
      have hko : keyedFor keepContribOne mKey k tx = false := by
        simp [keyedFor, keepContribOne, keepContrib, keepCredit, hrev]
      rw [mrcStep_skip init tx hrev, ih init k v h]
      simp only [monthRecSum, monthOneSum, keySum_cons_false hkr, keySum_cons_false hko]
    · have hrev2 : isReversedOrReverse tx = false := by simpa using hrev
      by_cases hc : tx.creditDebit = CreditDebit.CREDIT
      · by_cases hk : tx.kind = str "CONTRIBUTION"
        · rw [mrcStep_kept init tx hrev2 hc hk]
          by_cases hm : mKey tx = k
          · rw [hm, h]
            by_cases hr : isRecurringContribution tx = true
            · have hkr : keyedFor keepContribRec mKey k tx = true := by
                simp [keyedFor, keepContribRec, keepContrib, keepCredit, hrev2, hc, hk,
                  hr, hm]
              have hko : keyedFor keepContribOne mKey k tx = false := by
                simp [keyedFor, keepContribOne, hr]
              rw [if_pos hr]
              rw [ih _ k _ (lookupA_setA_self init k _)]
              simp only [monthRecSum, monthOneSum, keySum_cons_true hkr,
                keySum_cons_false hko, Option.getD_some, Option.some.injEq,
                RecOneAcc.mk.injEq, txAmount]
              constructor
              · ring
              · trivial
            · have hr2 : isRecurringContribution tx = false := by simpa using hr
              have hkr : keyedFor keepContribRec mKey k tx = false := by
                simp [keyedFor, keepContribRec, hr2]
              have hko : keyedFor keepContribOne mKey k tx = true := by
                simp [keyedFor, keepContribOne, keepContrib, keepCredit, hrev2, hc, hk,
                  hr2, hm]
              rw [if_neg (by simp [hr2])]
              rw [ih _ k _ (lookupA_setA_self init k _)]
              simp only [monthRecSum, monthOneSum, keySum_cons_false hkr,
                keySum_cons_true hko, Option.getD_some, Option.some.injEq,
                RecOneAcc.mk.injEq, txAmount]
              constructor
              · trivial
              · ring
          · have hkr : keyedFor keepContribRec mKey k tx = false := by
              simp [keyedFor, hm]
            have hko : keyedFor keepContribOne mKey k tx = false := by
              simp [keyedFor, hm]
            rw [ih _ k v (by rw [lookupA_setA_ne _ _ _ _ hm]; exact h)]
            simp only [monthRecSum, monthOneSum, keySum_cons_false hkr,
              keySum_cons_false hko]
        · have hkr : keyedFor keepContribRec mKey k tx = false := by
            simp [keyedFor, keepContribRec, keepContrib, hk]
          have hko : keyedFor keepContribOne mKey k tx = false := by
            simp [keyedFor, keepContribOne, keepContrib, hk]
          rw [mrcStep_notContrib init tx hk, ih init k v h]
          simp only [monthRecSum, monthOneSum, keySum_cons_false hkr,
            keySum_cons_false hko]
      · have hkr : keyedFor keepContribRec mKey k tx = false := by
          simp [keyedFor, keepContribRec, keepContrib, keepCredit, hc]
        have hko : keyedFor keepContribOne mKey k tx = false := by
          simp [keyedFor, keepContribOne, keepContrib, keepCredit, hc]
        rw [mrcStep_notCredit init tx hc, ih init k v h]
        simp only [monthRecSum, monthOneSum, keySum_cons_false hkr, keySum_cons_false hko]

/-- Fold invariant of the monthly recurring map, key absent. -/
lemma mrcFold_lookup_none :
    ∀ (txs : List Transaction) (init : List (Str × RecOneAcc)) (k : Str),
      lookupA init k = none →
      lookupA (txs.foldl monthlyRecurringStep init) k =
        (if txs.any (keyedFor keepContrib mKey k) then
          some ⟨monthRecSum txs k, monthOneSum txs k⟩
        else none) := by
  intro txs
  induction txs with
  | nil =>
    intro init k h
    simp [h]
  | cons tx rest ih =>
    intro init k h
    simp only [List.foldl_cons]
    by_cases hrev : isReversedOrReverse tx
    · have hkc : keyedFor keepContrib mKey k tx = false := by
        simp [keyedFor, keepContrib, keepCredit, hrev]
      have hkr : keyedFor keepContribRec mKey k tx = false := by
        simp [keyedFor, keepContribRec, keepContrib, keepCredit, hrev]
      have hko : keyedFor keepContribOne mKey k tx = false := by
        simp [keyedFor, keepContribOne, keepContrib, keepCredit, hrev]
      rw [mrcStep_skip init tx hrev, ih init k h]
      simp only [monthRecSum, monthOneSum, keySum_cons_false hkr, keySum_cons_false hko,
        List.any_cons, hkc, Bool.false_or]
    · have hrev2 : isReversedOrReverse tx = false := by simpa using hrev
      by_cases hc : tx.creditDebit = CreditDebit.CREDIT
      · by_cases hk : tx.kind = str "CONTRIBUTION"
        · rw [mrcStep_kept init tx hrev2 hc hk]
          by_cases hm : mKey tx = k
          · have hkc : keyedFor keepContrib mKey k tx = true := by
              simp [keyedFor, keepContrib, keepCredit, hrev2, hc, hk, hm]
            rw [hm, h]
            by_cases hr : isRecurringContribution tx = true
            · have hkr : keyedFor keepContribRec mKey k tx = true := by
                simp [keyedFor, keepContribRec, keepContrib, keepCredit, hrev2, hc, hk,
                  hr, hm]
              have hko : keyedFor keepContribOne mKey k tx = false := by
                simp [keyedFor, keepContribOne, hr]
              rw [if_pos hr]
              rw [mrcFold_lookup_some rest _ k _ (lookupA_setA_self init k _)]
              simp only [monthRecSum, monthOneSum, keySum_cons_true hkr,
                keySum_cons_false hko, List.any_cons, hkc, Bool.true_or, if_true,
                Option.getD_none, Option.some.injEq, RecOneAcc.mk.injEq, txAmount]
              constructor
              · ring
              · ring
            · have hr2 : isRecurringContribution tx = false := by simpa using hr
              have hkr : keyedFor keepContribRec mKey k tx = false := by
                simp [keyedFor, keepContribRec, hr2]
              have hko : keyedFor keepContribOne mKey k tx = true := by
                simp [keyedFor, keepContribOne, keepContrib, keepCredit, hrev2, hc, hk,
                  hr2, hm]
              rw [if_neg (by simp [hr2])]
              rw [mrcFold_lookup_some rest _ k _ (lookupA_setA_self init k _)]
              simp only [monthRecSum, monthOneSum, keySum_cons_false hkr,
                keySum_cons_true hko, List.any_cons, hkc, Bool.true_or, if_true,
                Option.getD_none, Option.some.injEq, RecOneAcc.mk.injEq, txAmount]
              constructor
              · ring
              · ring
          · have hkc : keyedFor keepContrib mKey k tx = false := by
              simp [keyedFor, hm]
            have hkr : keyedFor keepContribRec mKey k tx = false := by
              simp [keyedFor, hm]
            have hko : keyedFor keepContribOne mKey k tx = false := by
              simp [keyedFor, hm]
            rw [ih _ k (by rw [lookupA_setA_ne _ _ _ _ hm]; exact h)]
            simp only [monthRecSum, monthOneSum, keySum_cons_false hkr,
              keySum_cons_false hko, List.any_cons, hkc, Bool.false_or]
        · have hkc : keyedFor keepContrib mKey k tx = false := by
            simp [keyedFor, keepContrib, hk]
          have hkr : keyedFor keepContribRec mKey k tx = false := by
            simp [keyedFor, keepContribRec, keepContrib, hk]
          have hko : keyedFor keepContribOne mKey k tx = false := by
            simp [keyedFor, keepContribOne, keepContrib, hk]
          rw [mrcStep_notContrib init tx hk, ih init k h]
          simp only [monthRecSum, monthOneSum, keySum_cons_false hkr,
            keySum_cons_false hko, List.any_cons, hkc, Bool.false_or]
      · have hkc : keyedFor keepContrib mKey k tx = false := by
          simp [keyedFor, keepContrib, keepCredit, hc]
        have hkr : keyedFor keepContribRec mKey k tx = false := by
          simp [keyedFor, keepContribRec, keepContrib, keepCredit, hc]
        have hko : keyedFor keepContribOne mKey k tx = false := by
          simp [keyedFor, keepContribOne, keepContrib, keepCredit, hc]
        rw [mrcStep_notCredit init tx hc, ih init k h]
        simp only [monthRecSum, monthOneSum, keySum_cons_false hkr, keySum_cons_false hko,
          List.any_cons, hkc, Bool.false_or]

/-- The monthly recurring fold never duplicates a key. -/
lemma mrcFold_nodup :
    ∀ (txs : List Transaction) (init : List (Str × RecOneAcc)),
      (init.map Prod.fst).Nodup →
      ((txs.foldl monthlyRecurringStep init).map Prod.fst).Nodup := by
  intro txs
  induction txs with
  | nil => intro init h; exact h
  | cons tx rest ih =>
    intro init h
    simp only [List.foldl_cons]
    by_cases hrev : isReversedOrReverse tx
    · rw [mrcStep_skip init tx hrev]
      exact ih init h
    · have hrev2 : isReversedOrReverse tx = false := by simpa using hrev
      by_cases hc : tx.creditDebit = CreditDebit.CREDIT
      · by_cases hk : tx.kind = str "CONTRIBUTION"
        · rw [mrcStep_kept init tx hrev2 hc hk]
          exact ih _ (nodup_keys_setA init _ _ h)
        · rw [mrcStep_notContrib init tx hk]
          exact ih init h
      · rw [mrcStep_notCredit init tx hc]
        exact ih init h

/-- Every monthly recurring row carries the rounded exact recurring and
one-time sums of its month. -/
lemma analyzeMonthlyRecurringContributions_fields (txs : List Transaction)
    (row : MonthlyRecurringData) (h : row ∈ analyzeMonthlyRecurringContributions txs) :
    row.recurring = round2 (monthRecSum txs row.month) ∧
    row.oneTime = round2 (monthOneSum txs row.month) := by
  simp only [analyzeMonthlyRecurringContributions] at h
  have h2 := (List.perm_insertionSort mrLe _).mem_iff.mp h
  obtain ⟨p, hp, heq⟩ := List.mem_map.mp h2
  have hnd := mrcFold_nodup txs [] (by simp)
  have hlook := lookupA_eq_of_mem _ p.1 p.2 hnd hp
  have hinv := mrcFold_lookup_none txs [] p.1 rfl
  rw [hlook] at hinv
  by_cases hany : txs.any (keyedFor keepContrib mKey p.1) = true
  · rw [if_pos hany] at hinv
    injection hinv with hv
    rw [← heq, hv]
    exact ⟨rfl, rfl⟩
  · rw [if_neg hany] at hinv
    exact absurd hinv (by simp)

lemma salariedStep_skip (acc : List (Str × SalaryAcc)) (tx : Transaction)
    (h : isReversedOrReverse tx = true) : salariedStep acc tx = acc := by
  simp [salariedStep, h]

lemma salariedStep_notDebit (acc : List (Str × SalaryAcc)) (tx : Transaction)
    (h : ¬(tx.creditDebit = CreditDebit.DEBIT)) : salariedStep acc tx = acc := by
  simp [salariedStep, h]

lemma salariedStep_notExpense (acc : List (Str × SalaryAcc)) (tx : Transaction)
    (h : ¬(tx.kind = str "EXPENSE")) : salariedStep acc tx = acc := by
  simp [salariedStep, h]

lemma salariedStep_notSalaryLike (acc : List (Str × SalaryAcc)) (tx : Transaction)
    (h : isSalaryLike tx = false) : salariedStep acc tx = acc := by
  simp [salariedStep, h]

/-- A kept salary transaction updates its recipient entry in place and
adds its absolute amount to the running total (the other fields track
months and the first description, not money). -/
lemma salariedStep_kept (acc : List (Str × SalaryAcc)) (tx : Transaction)
    (hrev : isReversedOrReverse tx = false) (hcd : tx.creditDebit = CreditDebit.DEBIT)
    (hk : tx.kind = str "EXPENSE") (hs : isSalaryLike tx = true) :
    ∃ w : SalaryAcc, salariedStep acc tx = setA acc (counterpartyOf tx) w ∧
      w.total = ((lookupA acc (counterpartyOf tx)).getD
        ⟨0, 0, mKey tx, mKey tx, tx.description⟩).total + |tx.amountSingleColumn| := by
  unfold salariedStep
  rw [if_neg (by simp [hrev]), if_neg (by simp [hcd]), if_neg (by simp [hk]),
    if_neg (by simp [hs])]
  refine ⟨_, rfl, ?_⟩
  split_ifs <;> rfl

/-- Fold invariant of the salaried map: the running total of a recipient
is the exact sum of the absolute amounts of its kept salary-like
transactions. -/
lemma salariedFold_total :
    ∀ (txs : List Transaction) (init : List (Str × SalaryAcc)) (k : Str),
      (lookupA (txs.foldl salariedStep init) k).map SalaryAcc.total =
        (match lookupA init k with
         | some v => some (v.total + salarySum txs k)
         | none =>
           if txs.any (keyedFor keepSalary counterpartyOf k) then
             some (salarySum txs k)
           else none) := by
  intro txs
  induction txs with
  | nil =>
    intro init k
    cases h : lookupA init k <;> simp [salarySum, keySum, h]
  | cons tx rest ih =>
    intro init k
    simp only [List.foldl_cons]
    by_cases hrev : isReversedOrReverse tx
    · have hkf : keyedFor keepSalary counterpartyOf k tx = false := by
        simp [keyedFor, keepSalary, hrev]
      rw [salariedStep_skip init tx hrev, ih init k]
      cases h : lookupA init k <;>
        simp [h, salarySum, keySum_cons_false hkf, List.any_cons, hkf]
    · have hrev2 : isReversedOrReverse tx = false := by simpa using hrev
      by_cases hcd : tx.creditDebit = CreditDebit.DEBIT
      · by_cases hk : tx.kind = str "EXPENSE"
        · by_cases hs : isSalaryLike tx = true
          · obtain ⟨w, hstep, htot⟩ := salariedStep_kept init tx hrev2 hcd hk hs
            rw [hstep]
            by_cases hkey : counterpartyOf tx = k
            · have hkf : keyedFor keepSalary counterpartyOf k tx = true := by
                simp [keyedFor, keepSalary, hrev2, hcd, hk, hs, hkey]
              rw [hkey] at htot ⊢
              rw [ih (setA init k w) k, lookupA_setA_self init k w]
              cases h : lookupA init k
              · rw [h] at htot
                simp only [h, Option.getD_none, List.any_cons, hkf, Bool.true_or,
                  if_true, salarySum, keySum_cons_true hkf, htot, txAbsAmount,
                  Option.some.injEq]
                ring
              · rw [h] at htot
                simp only [h, Option.getD_some, List.any_cons, salarySum,
                  keySum_cons_true hkf, htot, txAbsAmount, Option.some.injEq]
                ring
            · have hkf : keyedFor keepSalary counterpartyOf k tx = false := by
                simp [keyedFor, hkey]
              rw [ih (setA init (counterpartyOf tx) w) k,
                lookupA_setA_ne _ _ _ _ hkey]
              cases h : lookupA init k <;>
                simp [h, salarySum, keySum_cons_false hkf, List.any_cons, hkf]
          · have hs2 : isSalaryLike tx = false := by simpa using hs
            have hkf : keyedFor keepSalary counterpartyOf k tx = false := by
              simp [keyedFor, keepSalary, hs2]
            rw [salariedStep_notSalaryLike init tx hs2, ih init k]
            cases h : lookupA init k <;>
              simp [h, salarySum, keySum_cons_false hkf, List.any_cons, hkf]
        · have hkf : keyedFor keepSalary counterpartyOf k tx = false := by
            simp [keyedFor, keepSalary, hk]
          rw [salariedStep_notExpense init tx hk, ih init k]
          cases h : lookupA init k <;>
            simp [h, salarySum, keySum_cons_false hkf, List.any_cons, hkf]
      · have hkf : keyedFor keepSalary counterpartyOf k tx = false := by
          simp [keyedFor, keepSalary, hcd]
        rw [salariedStep_notDebit init tx hcd, ih init k]
        cases h : lookupA init k <;>
          simp [h, salarySum, keySum_cons_false hkf, List.any_cons, hkf]

/-- The salaried fold never duplicates a key. -/
lemma salFold_nodup :
    ∀ (txs : List Transaction) (init : List (Str × SalaryAcc)),
      (init.map Prod.fst).Nodup →
      ((txs.foldl salariedStep init).map Prod.fst).Nodup := by
  intro txs
  induction txs with
  | nil => intro init h; exact h
  | cons tx rest ih =>
    intro init h
    simp only [List.foldl_cons]
    by_cases hrev : isReversedOrReverse tx
    · rw [salariedStep_skip init tx hrev]
      exact ih init h
    · have hrev2 : isReversedOrReverse tx = false := by simpa using hrev
      by_cases hcd : tx.creditDebit = CreditDebit.DEBIT
      · by_cases hk : tx.kind = str "EXPENSE"
        · by_cases hs : isSalaryLike tx = true
          · obtain ⟨w, hstep, -⟩ := salariedStep_kept init tx hrev2 hcd hk hs
            rw [hstep]
            exact ih _ (nodup_keys_setA init _ _ h)
          · rw [salariedStep_notSalaryLike init tx (by simpa using hs)]
            exact ih init h
        · rw [salariedStep_notExpense init tx hk]
          exact ih init h
      · rw [salariedStep_notDebit init tx hcd]
        exact ih init h

/-- Every salary row's money fields are the rounded exact total of its
recipient and that total divided by the row's inclusive month span. -/
lemma analyzeSalariedExpenses_money (txs : List Transaction) (row : SalaryAnalysis)
    (h : row ∈ analyzeSalariedExpenses txs) :
    row.totalPaid = round2 (salarySum txs row.recipient) ∧
    row.monthlyAverage = round2 (salarySum txs row.recipient /
      (monthsBetween row.firstPayment row.lastPayment : ℚ)) := by
  simp only [analyzeSalariedExpenses] at h
  have h2 := (List.perm_insertionSort salDesc _).mem_iff.mp h
  obtain ⟨p, hp, heq⟩ := List.mem_map.mp h2
  have hnd := salFold_nodup txs [] (by simp)
  have hlook := lookupA_eq_of_mem _ p.1 p.2 hnd hp
  have hinv := salariedFold_total txs [] p.1
  rw [hlook] at hinv
  have hinv2 : some p.2.total =
      (if txs.any (keyedFor keepSalary counterpartyOf p.1) then
        some (salarySum txs p.1)
      else none) := hinv
  by_cases hany : txs.any (keyedFor keepSalary counterpartyOf p.1) = true
  · rw [if_pos hany] at hinv2
    injection hinv2 with htot
    rw [← heq]
    exact ⟨by rw [htot], by rw [htot]⟩
  · rw [if_neg hany] at hinv2
    exact absurd hinv2 (by simp)

/-- Every largest-single-contribution record carries the raw, unrounded
amount of a kept CREDIT transaction of the input. -/
lemma getLargestSingle_raw (txs : List Transaction) (n : ℕ) (c : SingleContribution)
    (h : c ∈ getLargestSingleContributions txs n) :
    ∃ tx, tx ∈ txs ∧ isReversedOrReverse tx = false ∧
      tx.creditDebit = CreditDebit.CREDIT ∧ c.amount = tx.amountSingleColumn := by
  rw [getLargestSingleContributions_eq] at h
  have h2 := List.mem_of_mem_take h
  have h3 := (List.perm_insertionSort scDesc _).mem_iff.mp h2
  obtain ⟨tx, htx, heq⟩ := List.mem_map.mp h3
  have h4 := List.mem_filter.mp htx
  have h5 := List.mem_filter.mp (by simpa [removeReversed] using h4.1 :
    tx ∈ txs.filter fun tx => !(isReversedOrReverse tx))
  refine ⟨tx, h5.1, by simpa using h5.2, by simpa using h4.2, ?_⟩
  rw [← heq]
  rfl

/-- Every largest-one-time-contribution record carries the raw,
unrounded amount of a kept CREDIT transaction of the input. -/
lemma getLargestOneTime_raw (txs : List Transaction) (n : ℕ) (c : SingleContribution)
    (h : c ∈ getLargestOneTimeContributions txs n) :
    ∃ tx, tx ∈ txs ∧ isReversedOrReverse tx = false ∧
      tx.creditDebit = CreditDebit.CREDIT ∧ c.amount = tx.amountSingleColumn := by
  unfold getLargestOneTimeContributions at h
  have h2 := List.mem_of_mem_take h
  exact getLargestSingle_raw txs 1000 c (List.mem_filter.mp h2).1

/-- Claim C1: for every transaction list, every report function of the
module (monthly summary, income sources, expenses, expenses by category,
contributions, monthly recurring contributions, salaried expenses, runway
projection, largest single and largest one-time contributions) returns
the same output when every reversal-marked transaction (is-reverse flag,
is-reversed flag, or non-empty reverse-transaction-ID) is removed from
the input. -/
theorem claim_C1_reversed_never_contribute :
    ∀ (txs : List Transaction) (k n : ℕ),
      calculateMonthlyData (removeReversed txs) = calculateMonthlyData txs ∧
      analyzeIncomeSources (removeReversed txs) = analyzeIncomeSources txs ∧
      analyzeExpenses (removeReversed txs) = analyzeExpenses txs ∧
      analyzeExpensesByCategory (removeReversed txs) = analyzeExpensesByCategory txs ∧
      analyzeContributions (removeReversed txs) = analyzeContributions txs ∧
      analyzeMonthlyRecurringContributions (removeReversed txs) =
        analyzeMonthlyRecurringContributions txs ∧
      analyzeSalariedExpenses (removeReversed txs) = analyzeSalariedExpenses txs ∧
      calculateRunwayProjection (removeReversed txs) k = calculateRunwayProjection txs k ∧
      getLargestSingleContributions (removeReversed txs) n =
        getLargestSingleContributions txs n ∧
      getLargestOneTimeContributions (removeReversed txs) n =
        getLargestOneTimeContributions txs n :=
  fun txs k n =>
    ⟨calculateMonthlyData_removeReversed txs,
     analyzeIncomeSources_removeReversed txs,
     analyzeExpenses_removeReversed txs,
     analyzeExpensesByCategory_removeReversed txs,
     analyzeContributions_removeReversed txs,
     analyzeMonthlyRecurringContributions_removeReversed txs,
     analyzeSalariedExpenses_removeReversed txs,
     calculateRunwayProjection_removeReversed txs k,
     getLargestSingleContributions_removeReversed txs n,
     getLargestOneTimeContributions_removeReversed txs n⟩

/-- Claim C2 counterexample: with a CREDIT of 1/128 and a DEBIT of
-1/256 in one month (both exactly representable in binary64), the
monthly row is income 0.01, expenses 0, net 0, so the row violates
net = income - expenses (and income is not the exact credit sum). -/
theorem claim_C2_counterexample :
    calculateMonthlyData [subCentCredit, subCentDebit] =
      [{ month := str "2024-01", income := 1 / 100, expenses := 0, net := 0 }] ∧
    monthCreditSum [subCentCredit, subCentDebit] (str "2024-01") = 1 / 128 ∧
    ¬((0 : ℚ) = 1 / 100 - 0) ∧ ¬((1 / 100 : ℚ) = 1 / 128) := by
  refine ⟨?_, ?_, by norm_num, by norm_num⟩
  · norm_num +decide [calculateMonthlyData, monthStep, subCentCredit, subCentDebit,
      lookupA, setA, round2, jsRound, List.insertionSort, List.orderedInsert,
      abs_of_nonneg, abs_of_nonpos]
  · norm_num +decide [monthCreditSum, keptCreditIn, keptIn, subCentCredit, subCentDebit,
      List.filter_cons]

/-- Claim C2 (amended): calculateMonthlyData returns one row per distinct
month key of the non-excluded transactions, sorted strictly ascending by
month key; each row carries income = round2(sum of CREDIT amounts of the
month), expenses = round2(sum of absolute DEBIT amounts), and
net = round2(raw income - raw expenses); the identity
net = income - expenses holds whenever every amount is a whole number of
cents, but can fail for sub-cent amounts. -/
theorem claim_C2_monthly_summary (txs : List Transaction) :
    (∀ k : Str, k ∈ (calculateMonthlyData txs).map MonthlyData.month ↔
      ∃ tx, tx ∈ txs ∧ isReversedOrReverse tx = false ∧
        getYearMonth tx.effectiveDateTime = k) ∧
    ((calculateMonthlyData txs).map MonthlyData.month).Nodup ∧
    List.Pairwise (fun a b : MonthlyData => strLtB a.month b.month = true)
      (calculateMonthlyData txs) ∧
    (∀ row ∈ calculateMonthlyData txs,
      row.income = round2 (monthCreditSum txs row.month) ∧
      row.expenses = round2 (monthDebitSum txs row.month) ∧
      row.net = round2 (monthCreditSum txs row.month - monthDebitSum txs row.month)) ∧
    ((∀ tx ∈ txs, CentMul tx.amountSingleColumn) →
      ∀ row ∈ calculateMonthlyData txs, row.net = row.income - row.expenses) := by
  refine ⟨monthlyData_month_mem txs, monthlyData_months_nodup txs, monthlyData_sorted txs,
    fun row hr => monthlyData_fields txs row hr, ?_⟩
  intro hcent row hr
  obtain ⟨hi, he, hn⟩ := monthlyData_fields txs row hr
  have hc : CentMul (monthCreditSum txs row.month) := centMul_monthCreditSum txs _ hcent
  have hd : CentMul (monthDebitSum txs row.month) := centMul_monthDebitSum txs _ hcent
  rw [hi, he, hn, round2_eq_self hc, round2_eq_self hd, round2_eq_self (centMul_sub hc hd)]

/-- Claim C2 witness: on the single DEBIT of 10 in January 2024, the
monthly row is in the output, its fields are the rounded exact sums, and
the whole-cent hypothesis yields net = income - expenses. -/
theorem claim_C2_monthly_summary_witness :
    (⟨str "2024-01", 0, 10, -10⟩ : MonthlyData) ∈ calculateMonthlyData [plainDebitTen] ∧
    ((⟨str "2024-01", 0, 10, -10⟩ : MonthlyData).income =
        round2 (monthCreditSum [plainDebitTen] (str "2024-01")) ∧
      (⟨str "2024-01", 0, 10, -10⟩ : MonthlyData).expenses =
        round2 (monthDebitSum [plainDebitTen] (str "2024-01")) ∧
      (⟨str "2024-01", 0, 10, -10⟩ : MonthlyData).net =
        round2 (monthCreditSum [plainDebitTen] (str "2024-01") -
          monthDebitSum [plainDebitTen] (str "2024-01"))) ∧
    (⟨str "2024-01", 0, 10, -10⟩ : MonthlyData).net =
      (⟨str "2024-01", 0, 10, -10⟩ : MonthlyData).income -
        (⟨str "2024-01", 0, 10, -10⟩ : MonthlyData).expenses := by
  have heval : calculateMonthlyData [plainDebitTen] = [⟨str "2024-01", 0, 10, -10⟩] := by
    norm_num +decide [calculateMonthlyData, monthStep, plainDebitTen, lookupA, setA,
      round2, jsRound, List.insertionSort, List.orderedInsert, abs_of_nonneg,
      abs_of_nonpos]
  have hmem : (⟨str "2024-01", 0, 10, -10⟩ : MonthlyData) ∈
      calculateMonthlyData [plainDebitTen] := by
    rw [heval]
    exact List.mem_singleton.mpr rfl
  have hcent : ∀ tx ∈ [plainDebitTen], CentMul tx.amountSingleColumn := by
    intro tx htx
    rcases List.mem_singleton.mp htx with rfl
    exact ⟨-1000, by norm_num [plainDebitTen]⟩
  exact ⟨hmem, (claim_C2_monthly_summary [plainDebitTen]).2.2.2.1 _ hmem,
    (claim_C2_monthly_summary [plainDebitTen]).2.2.2.2 hcent _ hmem⟩

/-- Claim C3 counterexample: two genuine failures of the claim. First,
the month with the single DEBIT of 0.125 has the exact net -0.125;
Math.round ties toward positive infinity give the output -0.12, while
the ties-away-from-zero rounding the claim states gives -0.13. Second,
getLargestSingleContributions passes raw amounts through unrounded: the
sub-cent contribution 1/128 appears as exactly 1/128 in the output,
which is not rounded to 2 decimals (re-rounding it is not a no-op). -/
theorem claim_C3_counterexample :
    calculateMonthlyData [negTieDebit] =
      [{ month := str "2024-01", income := 0, expenses := 13 / 100, net := -(12 / 100) }] ∧
    monthCreditSum [negTieDebit] (str "2024-01") = 0 ∧
    monthDebitSum [negTieDebit] (str "2024-01") = 1 / 8 ∧
    specRound2 (0 - 1 / 8) = -(13 / 100) ∧
    ¬((-(12 / 100) : ℚ) = -(13 / 100)) ∧
    getLargestSingleContributions [subCentCredit] 10 =
      [{ date := str "2024-01-10", source := str "Ann", amount := 1 / 128,
         description := str "tiny gift", isRecurring := false }] ∧
    ¬(round2 (1 / 128) = (1 / 128 : ℚ)) := by
  refine ⟨?_, ?_, ?_, ?_, by norm_num, ?_, ?_⟩
  · norm_num +decide [calculateMonthlyData, monthStep, negTieDebit, lookupA, setA,
      round2, jsRound, List.insertionSort, List.orderedInsert, abs_of_nonneg,
      abs_of_nonpos]
  · norm_num +decide [monthCreditSum, keptCreditIn, keptIn, negTieDebit, List.filter_cons]
  · norm_num +decide [monthDebitSum, keptDebitIn, keptIn, negTieDebit, List.filter_cons,
      abs_of_nonneg, abs_of_nonpos]
  · norm_num [specRound2, specAwayRound]
  · norm_num +decide [getLargestSingleContributions, contributionPushStep,
      mkSingleContribution, subCentCredit, List.insertionSort, List.orderedInsert, scDesc]
  · norm_num [round2, jsRound]

/-- Claim C3 (amended): every monetary value in every report output,
except the amount fields of getLargestSingleContributions and
getLargestOneTimeContributions which pass the raw transaction amounts
through unrounded, equals its exact accumulated quantity rounded by
round2(x) = floor(x*100 + 1/2)/100, the JS Math.round(x*100)/100
semantics with ties toward positive infinity (agreeing with ties away
from zero for non-negative values but not for negative ties); rounding
is idempotent, so re-rounding any rounded output is a no-op. Stated for
the monthly summary, the income-source, expense, both
expense-by-category variants, the contribution analysis (sides and
contributors), the monthly recurring report, the salary analysis, all
five runway money fields including requiredMonthlyContribution, and the
raw pass-through of the largest-contribution views. -/
theorem claim_C3_rounding (txs : List Transaction) (k n : ℕ) :
    (∀ row ∈ calculateMonthlyData txs,
      row.income = round2 (monthCreditSum txs row.month) ∧
      row.expenses = round2 (monthDebitSum txs row.month) ∧
      row.net = round2 (monthCreditSum txs row.month - monthDebitSum txs row.month)) ∧
    (∀ row ∈ analyzeIncomeSources txs,
      row.amount = round2 (keySum keepCredit counterpartyOf txAmount txs row.source)) ∧
    (∀ row ∈ analyzeExpenses txs,
      row.amount = round2 (keySum keepDebit counterpartyOf txAbsAmount txs row.recipient)) ∧
    (∀ row ∈ analyzeExpensesByCategory txs,
      row.amount = round2 (keySum keepDebit categoryOf txAbsAmount txs row.source)) ∧
    (∀ row ∈ analyzeExpensesByCategoryFull txs,
      row.amount = round2 (keySum keepDebit categoryOfFull txAbsAmount txs row.source)) ∧
    ((analyzeContributions txs).recurring.amount =
        round2 ((((analyzeContributions txs).recurring.contributors).map
          SourceBreakdown.amount).sum) ∧
      (analyzeContributions txs).oneTime.amount =
        round2 ((((analyzeContributions txs).oneTime.contributors).map
          SourceBreakdown.amount).sum) ∧
      (∀ row ∈ (analyzeContributions txs).recurring.contributors,
        row.amount = round2 (keySum keepContribRec counterpartyOf txAmount txs
          row.source)) ∧
      (∀ row ∈ (analyzeContributions txs).oneTime.contributors,
        row.amount = round2 (keySum keepContribOne counterpartyOf txAmount txs
          row.source))) ∧
    (∀ row ∈ analyzeMonthlyRecurringContributions txs,
      row.recurring = round2 (monthRecSum txs row.month) ∧
      row.oneTime = round2 (monthOneSum txs row.month)) ∧
    (∀ row ∈ analyzeSalariedExpenses txs,
      row.totalPaid = round2 (salarySum txs row.recipient) ∧
      row.monthlyAverage = round2 (salarySum txs row.recipient /
        (monthsBetween row.firstPayment row.lastPayment : ℚ))) ∧
    ((calculateRunwayProjection txs k).currentBalance =
        round2 (runwayCurrentBalance txs) ∧
      (calculateRunwayProjection txs k).averageMonthlyExpenses =
        round2 (runwayAverageMonthlyExpenses txs k) ∧
      (calculateRunwayProjection txs k).averageMonthlyIncome =
        round2 (runwayAverageMonthlyIncome txs k) ∧
      (calculateRunwayProjection txs k).averageMonthlyNet =
        round2 (runwayAverageMonthlyNet txs k) ∧
      (calculateRunwayProjection txs k).requiredMonthlyContribution =
        round2
          (if runwayAverageMonthlyIncome txs k < runwayAverageMonthlyExpenses txs k then
            runwayAverageMonthlyExpenses txs k - runwayAverageMonthlyIncome txs k
          else 0)) ∧
    ((∀ c ∈ getLargestSingleContributions txs n,
        ∃ tx, tx ∈ txs ∧ isReversedOrReverse tx = false ∧
          tx.creditDebit = CreditDebit.CREDIT ∧ c.amount = tx.amountSingleColumn) ∧
      (∀ c ∈ getLargestOneTimeContributions txs n,
        ∃ tx, tx ∈ txs ∧ isReversedOrReverse tx = false ∧
          tx.creditDebit = CreditDebit.CREDIT ∧ c.amount = tx.amountSingleColumn)) ∧
    (∀ x : ℚ, round2 (round2 x) = round2 x) ∧
    (∀ x : ℚ, 0 ≤ x → round2 x = specRound2 x) := by
  refine ⟨fun row hr => monthlyData_fields txs row hr,
    fun row hr => (analyzeIncomeSources_fields txs row hr).1,
    fun row hr => (analyzeExpenses_fields txs row hr).1,
    fun row hr => (analyzeExpensesByCategory_fields txs row hr).1,
    fun row hr => (analyzeExpensesByCategoryFull_fields txs row hr).1,
    ⟨(contributions_side_amounts txs).1, (contributions_side_amounts txs).2,
      fun row hr => analyzeContributions_rec_fields txs row hr,
      fun row hr => analyzeContributions_one_fields txs row hr⟩,
    fun row hr => analyzeMonthlyRecurringContributions_fields txs row hr,
    fun row hr => analyzeSalariedExpenses_money txs row hr,
    ?_,
    ⟨fun c hc => getLargestSingle_raw txs n c hc,
      fun c hc => getLargestOneTime_raw txs n c hc⟩,
    round2_idem,
    fun x hx => round2_eq_specRound2_of_nonneg hx⟩
  simp [calculateRunwayProjection, runwayAverageMonthlyNet]

/-- Claim C3 witness: the amended rounding facts exercised at concrete
inputs for every report family: the tie-month row, an income-source
row, an expense row, a category row of each variant, the contribution
side and contributor, a monthly recurring row, the demo salary row, the
runway requiredMonthlyContribution, the raw largest-contribution
records, idempotence, and the non-negative agreement with the
away-from-zero rounding. -/
theorem claim_C3_rounding_witness :
    ((-(12 / 100) : ℚ) = round2 (monthCreditSum [negTieDebit] (str "2024-01") -
        monthDebitSum [negTieDebit] (str "2024-01"))) ∧
    ((1 / 100 : ℚ) =
      round2 (keySum keepCredit counterpartyOf txAmount [subCentCredit] (str "Ann"))) ∧
    ((10 : ℚ) =
      round2 (keySum keepDebit counterpartyOf txAbsAmount [plainDebitTen]
        (str "Vendor"))) ∧
    ((100 : ℚ) =
      round2 (keySum keepDebit categoryOf txAbsAmount [consultantsAwardTx]
        (str "Paid Maintainers"))) ∧
    ((15 : ℚ) =
      round2 (keySum keepDebit categoryOfFull txAbsAmount [hostFeeTx]
        (str "OC Fees"))) ∧
    ((analyzeContributions [subCentCredit]).oneTime.amount =
      round2 ((((analyzeContributions [subCentCredit]).oneTime.contributors).map
        SourceBreakdown.amount).sum)) ∧
    ((1 / 100 : ℚ) =
      round2 (keySum keepContribOne counterpartyOf txAmount [subCentCredit]
        (str "Ann"))) ∧
    ((1 / 100 : ℚ) = round2 (monthOneSum [subCentCredit] (str "2024-01"))) ∧
    (salaryDemoRow.totalPaid = round2 (salarySum salaryDemoTxs (str "Alice")) ∧
      salaryDemoRow.monthlyAverage = round2 (salarySum salaryDemoTxs (str "Alice") /
        (monthsBetween (str "2024-01") (str "2024-03") : ℚ))) ∧
    ((calculateRunwayProjection [negTieDebit] 6).requiredMonthlyContribution =
      round2
        (if runwayAverageMonthlyIncome [negTieDebit] 6 <
            runwayAverageMonthlyExpenses [negTieDebit] 6 then
          runwayAverageMonthlyExpenses [negTieDebit] 6 -
            runwayAverageMonthlyIncome [negTieDebit] 6
        else 0)) ∧
    (∃ tx, tx ∈ [subCentCredit] ∧ isReversedOrReverse tx = false ∧
      tx.creditDebit = CreditDebit.CREDIT ∧ (1 / 128 : ℚ) = tx.amountSingleColumn) ∧
    (∃ tx, tx ∈ [subCentCredit] ∧ isReversedOrReverse tx = false ∧
      tx.creditDebit = CreditDebit.CREDIT ∧ (1 / 128 : ℚ) = tx.amountSingleColumn) ∧
    round2 (round2 (7 / 40)) = round2 (7 / 40) ∧
    (0 ≤ (1 / 8 : ℚ) → round2 (1 / 8) = specRound2 (1 / 8)) := by
  have hevalM : calculateMonthlyData [negTieDebit] =
      [⟨str "2024-01", 0, 13 / 100, -(12 / 100)⟩] := by
    norm_num +decide [calculateMonthlyData, monthStep, negTieDebit, lookupA, setA,
      round2, jsRound, List.insertionSort, List.orderedInsert, abs_of_nonneg,
      abs_of_nonpos]
  have hmemM : (⟨str "2024-01", 0, 13 / 100, -(12 / 100)⟩ : MonthlyData) ∈
      calculateMonthlyData [negTieDebit] := by
    rw [hevalM]
    exact List.mem_singleton.mpr rfl
  have hevalInc : analyzeIncomeSources [subCentCredit] =
      [⟨str "Ann", 1 / 100, 1⟩] := by
    norm_num +decide [analyzeIncomeSources, incomeSourcesStep, toSourceBreakdown,
      subCentCredit, lookupA, setA, round2, jsRound, List.insertionSort,
      List.orderedInsert]
  have hmemInc : (⟨str "Ann", 1 / 100, 1⟩ : SourceBreakdown) ∈
      analyzeIncomeSources [subCentCredit] := by
    rw [hevalInc]
    exact List.mem_singleton.mpr rfl
  have hevalExp : analyzeExpenses [plainDebitTen] = [⟨str "Vendor", 10, 1⟩] := by
    norm_num +decide [analyzeExpenses, expensesStep, plainDebitTen, lookupA, setA,
      round2, jsRound, List.insertionSort, List.orderedInsert, abs_of_nonneg,
      abs_of_nonpos]
  have hmemExp : (⟨str "Vendor", 10, 1⟩ : ExpenseBreakdown) ∈
      analyzeExpenses [plainDebitTen] := by
    rw [hevalExp]
    exact List.mem_singleton.mpr rfl
  have hevalCat : analyzeExpensesByCategory [consultantsAwardTx] =
      [⟨str "Paid Maintainers", 100, 1⟩] := by
    norm_num +decide [analyzeExpensesByCategory, categoryStep, consultantsAwardTx,
      toSourceBreakdown, lookupA, setA, round2, jsRound, List.insertionSort,
      List.orderedInsert, abs_of_nonneg, abs_of_nonpos]
  have hmemCat : (⟨str "Paid Maintainers", 100, 1⟩ : SourceBreakdown) ∈
      analyzeExpensesByCategory [consultantsAwardTx] := by
    rw [hevalCat]
    exact List.mem_singleton.mpr rfl
  have hevalCatF : analyzeExpensesByCategoryFull [hostFeeTx] =
      [⟨str "OC Fees", 15, 1⟩] := by
    norm_num +decide [analyzeExpensesByCategoryFull, categoryStepFull, hostFeeTx,
      toSourceBreakdown, lookupA, setA, round2, jsRound, List.insertionSort,
      List.orderedInsert, abs_of_nonneg, abs_of_nonpos]
  have hmemCatF : (⟨str "OC Fees", 15, 1⟩ : SourceBreakdown) ∈
      analyzeExpensesByCategoryFull [hostFeeTx] := by
    rw [hevalCatF]
    exact List.mem_singleton.mpr rfl
  have hevalContrib : analyzeContributions [subCentCredit] =
      ⟨⟨0, 0, []⟩, ⟨1 / 100, 1, [⟨str "Ann", 1 / 100, 1⟩]⟩⟩ := by
    norm_num +decide [analyzeContributions, contributionsStep, toSourceBreakdown,
      sumAmount, sumCount, subCentCredit, lookupA, setA, round2, jsRound,
      List.insertionSort, List.orderedInsert]
  have hmemContrib : (⟨str "Ann", 1 / 100, 1⟩ : SourceBreakdown) ∈
      (analyzeContributions [subCentCredit]).oneTime.contributors := by
    rw [hevalContrib]
    exact List.mem_singleton.mpr rfl
  have hevalMrc : analyzeMonthlyRecurringContributions [subCentCredit] =
      [⟨str "2024-01", 0, 1 / 100⟩] := by
    norm_num +decide [analyzeMonthlyRecurringContributions, monthlyRecurringStep,
      subCentCredit, lookupA, setA, round2, jsRound, List.insertionSort,
      List.orderedInsert]
  have hmemMrc : (⟨str "2024-01", 0, 1 / 100⟩ : MonthlyRecurringData) ∈
      analyzeMonthlyRecurringContributions [subCentCredit] := by
    rw [hevalMrc]
    exact List.mem_singleton.mpr rfl
  have hevalSal : analyzeSalariedExpenses salaryDemoTxs = [salaryDemoRow] := by
    norm_num +decide [analyzeSalariedExpenses, salariedStep, salaryDemoTxs,
      salaryDemoRow, lookupA, setA, round2, jsRound, List.insertionSort,
      List.orderedInsert, abs_of_nonneg, abs_of_nonpos, salDesc,
      show monthsBetween (getYearMonth (str "2024-01-15T00:00:00Z"))
        (getYearMonth (str "2024-03-15T00:00:00Z")) = 3 from by decide]
  have hmemSal : salaryDemoRow ∈ analyzeSalariedExpenses salaryDemoTxs := by
    rw [hevalSal]
    exact List.mem_singleton.mpr rfl
  have hevalSingle : getLargestSingleContributions [subCentCredit] 10 =
      [⟨str "2024-01-10", str "Ann", 1 / 128, str "tiny gift", false⟩] := by
    norm_num +decide [getLargestSingleContributions, contributionPushStep,
      mkSingleContribution, subCentCredit, List.insertionSort, List.orderedInsert,
      scDesc]
  have hmemSingle : (⟨str "2024-01-10", str "Ann", 1 / 128, str "tiny gift", false⟩ :
      SingleContribution) ∈ getLargestSingleContributions [subCentCredit] 10 := by
    rw [hevalSingle]
    exact List.mem_singleton.mpr rfl
  have hevalOne : getLargestOneTimeContributions [subCentCredit] 10 =
      [⟨str "2024-01-10", str "Ann", 1 / 128, str "tiny gift", false⟩] := by
    norm_num +decide [getLargestOneTimeContributions, getLargestSingleContributions,
      contributionPushStep, mkSingleContribution, subCentCredit, List.insertionSort,
      List.orderedInsert, scDesc, List.filter_cons]
  have hmemOne : (⟨str "2024-01-10", str "Ann", 1 / 128, str "tiny gift", false⟩ :
      SingleContribution) ∈ getLargestOneTimeContributions [subCentCredit] 10 := by
    rw [hevalOne]
    exact List.mem_singleton.mpr rfl
  obtain ⟨A1, -, -, -, -, -, -, -, A9, -, A11, A12⟩ :=
    claim_C3_rounding [negTieDebit] 6 10
  obtain ⟨-, B2, -, -, -, B6, B7, -, -, B10, -, -⟩ :=
    claim_C3_rounding [subCentCredit] 6 10
  obtain ⟨-, -, C3, -, -, -, -, -, -, -, -, -⟩ :=
    claim_C3_rounding [plainDebitTen] 6 10
  obtain ⟨-, -, -, D4, -, -, -, -, -, -, -, -⟩ :=
    claim_C3_rounding [consultantsAwardTx] 6 10
  obtain ⟨-, -, -, -, E5, -, -, -, -, -, -, -⟩ :=
    claim_C3_rounding [hostFeeTx] 6 10
  obtain ⟨-, -, -, -, -, -, -, H8, -, -, -, -⟩ :=
    claim_C3_rounding salaryDemoTxs 6 10
  exact ⟨(A1 _ hmemM).2.2, B2 _ hmemInc, C3 _ hmemExp, D4 _ hmemCat, E5 _ hmemCatF,
    B6.2.1, B6.2.2.2 _ hmemContrib, (B7 _ hmemMrc).2, H8 _ hmemSal, A9.2.2.2.2,
    B10.1 _ hmemSingle, B10.2 _ hmemOne, A11 (7 / 40),
    fun h => A12 (1 / 8) h⟩

/-- Claim C4: with at least one month of data (the empty window is the
implementation-defined NaN case the spec leaves open), monthsOfRunway is
positive infinity when the trailing-window average monthly net is
non-negative, and otherwise equals floor(currentBalance / abs(average
net)), which is non-positive (not clamped to zero) when the current
balance is negative. -/
theorem claim_C4_runway (txs : List Transaction) (k : ℕ)
    (_h : calculateMonthlyData txs ≠ []) :
    (0 ≤ runwayAverageMonthlyNet txs k →
      (calculateRunwayProjection txs k).monthsOfRunway = MonthsOfRunway.posInfinity) ∧
    (runwayAverageMonthlyNet txs k < 0 →
      (calculateRunwayProjection txs k).monthsOfRunway =
        MonthsOfRunway.finite
          ⌊runwayCurrentBalance txs / |runwayAverageMonthlyNet txs k|⌋ ∧
      (runwayCurrentBalance txs < 0 →
        ⌊runwayCurrentBalance txs / |runwayAverageMonthlyNet txs k|⌋ ≤ 0)) := by
  constructor
  · intro hpos
    simp only [calculateRunwayProjection]
    rw [if_pos (by unfold runwayAverageMonthlyNet at hpos; exact hpos)]
  · intro hneg
    have hneg2 : ¬(0 ≤ runwayAverageMonthlyIncome txs k - runwayAverageMonthlyExpenses txs k) := by
      unfold runwayAverageMonthlyNet at hneg
      exact not_le.mpr hneg
    constructor
    · simp only [calculateRunwayProjection]
      rw [if_neg hneg2]
      rfl
    · intro hcb
      have habs : 0 < |runwayAverageMonthlyNet txs k| := abs_pos.mpr (ne_of_lt hneg)
      have hq : runwayCurrentBalance txs / |runwayAverageMonthlyNet txs k| ≤ 0 :=
        le_of_lt (div_neg_of_neg_of_pos hcb habs)
      exact Int.floor_nonpos hq

/-- Claim C4 witness: one month with net -10 gives a negative window
average and the negative balance -10, so monthsOfRunway is the finite,
non-positive floor(-10/10) = -1. -/
theorem claim_C4_runway_witness :
    calculateMonthlyData [plainDebitTen] ≠ [] ∧
    runwayAverageMonthlyNet [plainDebitTen] 6 < 0 ∧
    runwayCurrentBalance [plainDebitTen] < 0 ∧
    (calculateRunwayProjection [plainDebitTen] 6).monthsOfRunway =
      MonthsOfRunway.finite
        ⌊runwayCurrentBalance [plainDebitTen] /
          |runwayAverageMonthlyNet [plainDebitTen] 6|⌋ ∧
    ⌊runwayCurrentBalance [plainDebitTen] /
      |runwayAverageMonthlyNet [plainDebitTen] 6|⌋ ≤ 0 := by
  have heval : calculateMonthlyData [plainDebitTen] = [⟨str "2024-01", 0, 10, -10⟩] := by
    norm_num +decide [calculateMonthlyData, monthStep, plainDebitTen, lookupA, setA,
      round2, jsRound, List.insertionSort, List.orderedInsert, abs_of_nonneg,
      abs_of_nonpos]
  have hne : calculateMonthlyData [plainDebitTen] ≠ [] := by
    rw [heval]
    simp
  have havg : runwayAverageMonthlyNet [plainDebitTen] 6 < 0 := by
    unfold runwayAverageMonthlyNet runwayAverageMonthlyIncome runwayAverageMonthlyExpenses
      runwayRecentMonths jsSliceLast
    rw [heval]
    norm_num
  have hcb : runwayCurrentBalance [plainDebitTen] < 0 := by
    unfold runwayCurrentBalance
    rw [heval]
    norm_num
  have hmain := (claim_C4_runway [plainDebitTen] 6 hne).2 havg
  exact ⟨hne, havg, hcb, hmain.1, hmain.2 hcb⟩

/-- Claim C5: getLargestOneTimeContributions takes the kept CREDIT
records sorted descending by amount, caps them at the intermediate limit
1000, filters to the non-recurring ones, and only then slices to the
requested limit; on the demo population of 3 one-time and 7 recurring
large contributions with limit 5 it returns exactly the 3 one-time
records sorted descending by amount. -/
theorem claim_C5_one_time_two_step :
    (∀ (txs : List Transaction) (n : ℕ),
      getLargestOneTimeContributions txs n =
        (((List.insertionSort scDesc
            (((removeReversed txs).filter fun tx =>
              decide (tx.creditDebit = CreditDebit.CREDIT)).map
              mkSingleContribution)).take 1000).filter
          fun c => !(c.isRecurring)).take n) ∧
    getLargestOneTimeContributions oneTimeDemoTxs 5 =
      [{ date := str "2025-08-01", source := str "Carol", amount := 500,
         description := str "One time gift C", isRecurring := false },
       { date := str "2025-09-01", source := str "Dave", amount := 300,
         description := str "One time gift D", isRecurring := false },
       { date := str "2025-10-01", source := str "Erin", amount := 100,
         description := str "One time gift E", isRecurring := false }] := by
  constructor
  · intro txs n
    unfold getLargestOneTimeContributions
    rw [getLargestSingleContributions_eq]
  · norm_num +decide [getLargestOneTimeContributions, getLargestSingleContributions,
      contributionPushStep, oneTimeDemoTxs, demoCredit, mkSingleContribution, scDesc,
      List.insertionSort, List.orderedInsert, List.filter_cons]

/-- Claim C6: the runway projection's currentBalance is the 2-decimal
rounding of the sum of net over all months of the monthly summary, not
just the trailing averaging window. -/
theorem claim_C6_current_balance (txs : List Transaction) (k : ℕ) :
    (calculateRunwayProjection txs k).currentBalance =
      round2 (((calculateMonthlyData txs).map MonthlyData.net).sum) := by
  simp only [calculateRunwayProjection]
  rw [runwayCurrentBalance_eq]

/-- Claim C7: every salary row's monthlyAverage is the (rounded) raw
total divided by monthsBetween of its first and last payment months,
where monthsBetween counts months inclusively as
(latestYear-earliestYear)*12 + (latestMonth-earliestMonth) + 1; in
particular the span from 2024-01 to 2024-03 is 3 months, and the demo
recipient paid 30 in January and 30 in March averages 60/3 = 20, not
60/2 = 30. -/
theorem claim_C7_salary_average :
    (∀ (txs : List Transaction) (e : SalaryAnalysis), e ∈ analyzeSalariedExpenses txs →
      ∃ (total : ℚ) (eM lM : Str),
        e.totalPaid = round2 total ∧ e.firstPayment = eM ∧ e.lastPayment = lM ∧
        e.monthlyAverage = round2 (total / (monthsBetween eM lM : ℚ))) ∧
    monthsBetween (str "2024-01") (str "2024-03") = 3 ∧
    analyzeSalariedExpenses salaryDemoTxs = [salaryDemoRow] := by
  refine ⟨?_, by decide, ?_⟩
  · intro txs e he
    simp only [analyzeSalariedExpenses] at he
    have h2 := (List.perm_insertionSort salDesc _).mem_iff.mp he
    obtain ⟨p, hp, heq⟩ := List.mem_map.mp h2
    refine ⟨p.2.total, p.2.earliestMonth, p.2.latestMonth, ?_, ?_, ?_, ?_⟩ <;>
      rw [← heq]
  · norm_num +decide [analyzeSalariedExpenses, salariedStep, salaryDemoTxs, salaryDemoRow,
      lookupA, setA, round2, jsRound, List.insertionSort, List.orderedInsert,
      abs_of_nonneg, abs_of_nonpos, salDesc,
      show monthsBetween (getYearMonth (str "2024-01-15T00:00:00Z"))
        (getYearMonth (str "2024-03-15T00:00:00Z")) = 3 from by decide]

/-- Claim C7 witness: the demo salary row is in the output and carries
the rounded total and the total divided by its inclusive month span. -/
theorem claim_C7_salary_average_witness :
    salaryDemoRow ∈ analyzeSalariedExpenses salaryDemoTxs ∧
    (∃ (total : ℚ) (eM lM : Str),
      salaryDemoRow.totalPaid = round2 total ∧ salaryDemoRow.firstPayment = eM ∧
      salaryDemoRow.lastPayment = lM ∧
      salaryDemoRow.monthlyAverage = round2 (total / (monthsBetween eM lM : ℚ))) := by
  have hmem : salaryDemoRow ∈ analyzeSalariedExpenses salaryDemoTxs := by
    rw [claim_C7_salary_average.2.2]
    exact List.mem_singleton.mpr rfl
  exact ⟨hmem, claim_C7_salary_average.1 salaryDemoTxs salaryDemoRow hmem⟩

/-- Claim C8: the category rules are evaluated in fixed priority order
with first match winning: a category starting with Consultants resolves
to Paid Maintainers even when the description contains community award
(rule 1 beats rule 2), and a single such kept DEBIT is bucketed under
Paid Maintainers by analyzeExpensesByCategory. -/
theorem claim_C8_priority :
    (∀ category description : Str, startsWithB category (str "Consultants") = true →
      containsB description (str "community award") = true →
      classifyExpenseCategory category description = str "Paid Maintainers") ∧
    (∀ tx : Transaction, isReversedOrReverse tx = false →
      tx.creditDebit = CreditDebit.DEBIT →
      startsWithB (effectiveCategory tx) (str "Consultants") = true →
      containsB (lowerStr tx.description) (str "community award") = true →
      analyzeExpensesByCategory [tx] =
        [{ source := str "Paid Maintainers", amount := round2 |tx.amountSingleColumn|,
           count := 1 }]) := by
  constructor
  · intro c d h1 _
    simp [classifyExpenseCategory, h1]
  · intro tx hrev hcd h1 _
    have hclass : classifyExpenseCategory (effectiveCategory tx) (lowerStr tx.description) =
        str "Paid Maintainers" := by
      simp [classifyExpenseCategory, h1]
    simp [analyzeExpensesByCategory, categoryStep, hrev, hcd, hclass, toSourceBreakdown,
      lookupA, setA, List.insertionSort, List.orderedInsert]

/-- Claim C8 witness: the demo Consultants transaction with a community
award description is bucketed under Paid Maintainers with its rounded
absolute amount 100. -/
theorem claim_C8_priority_witness :
    startsWithB (effectiveCategory consultantsAwardTx) (str "Consultants") = true ∧
    containsB (lowerStr consultantsAwardTx.description) (str "community award") = true ∧
    analyzeExpensesByCategory [consultantsAwardTx] =
      [{ source := str "Paid Maintainers",
         amount := round2 |consultantsAwardTx.amountSingleColumn|, count := 1 }] ∧
    round2 |consultantsAwardTx.amountSingleColumn| = 100 := by
  refine ⟨by decide, by decide,
    claim_C8_priority.2 consultantsAwardTx (by decide) (by decide) (by decide) (by decide),
    ?_⟩
  norm_num [consultantsAwardTx, round2, jsRound]

/-- Claim C9: the two analyzeExpensesByCategory variants agree on every
input containing no kept DEBIT with effective category exactly HOST_FEE;
on a kept HOST_FEE DEBIT matching no earlier rule, the full variant
buckets it under OC Fees while the abridged variant passes HOST_FEE
through unchanged. -/
theorem claim_C9_variant_equivalence :
    (∀ txs : List Transaction,
      (∀ tx ∈ txs, ¬(isReversedOrReverse tx = false ∧
        tx.creditDebit = CreditDebit.DEBIT ∧ effectiveCategory tx = str "HOST_FEE")) →
      analyzeExpensesByCategoryFull txs = analyzeExpensesByCategory txs) ∧
    (∀ tx : Transaction, isReversedOrReverse tx = false →
      tx.creditDebit = CreditDebit.DEBIT → effectiveCategory tx = str "HOST_FEE" →
      containsB (lowerStr tx.description) (str "core maintainer stipend") = false →
      containsB (lowerStr tx.description) (str "community award") = false →
      analyzeExpensesByCategoryFull [tx] =
        [{ source := str "OC Fees", amount := round2 |tx.amountSingleColumn|,
           count := 1 }] ∧
      analyzeExpensesByCategory [tx] =
        [{ source := str "HOST_FEE", amount := round2 |tx.amountSingleColumn|,
           count := 1 }]) := by
  constructor
  · intro txs h
    unfold analyzeExpensesByCategoryFull analyzeExpensesByCategory
    congr 1
    apply List.foldl_ext
    intro acc tx htx
    apply categoryStep_eq_of
    rcases Bool.eq_false_or_eq_true (isReversedOrReverse tx) with hr | hr
    · exact Or.inl hr
    · by_cases hcd : tx.creditDebit = CreditDebit.DEBIT
      · by_cases hcat : effectiveCategory tx = str "HOST_FEE"
        · exact absurd ⟨hr, hcd, hcat⟩ (h tx htx)
        · exact Or.inr (Or.inr hcat)
      · exact Or.inr (Or.inl hcd)
  · intro tx hrev hcd hcat h4 h5
    have hfull : classifyExpenseCategoryFull (effectiveCategory tx)
        (lowerStr tx.description) = str "OC Fees" := by
      rw [hcat]
      simp [classifyExpenseCategoryFull, h4, h5,
        show startsWithB (str "HOST_FEE") (str "Consultants") = false from by decide,
        show startsWithB (str "HOST_FEE") (str "Grants") = false from by decide,
        show startsWithB (str "HOST_FEE") (str "Other, Support & Commu") = false from by
          decide,
        show startsWithB (str "HOST_FEE") (str "Expenses - Donation") = false from by
          decide,
        show startsWithB (str "HOST_FEE") (str "Expenses - Travel") = false from by decide,
        show startsWithB (str "HOST_FEE") (str "Contributions - Hosted") = false from by
          decide,
        show ¬(str "HOST_FEE" = str "EXPENSE") from by decide,
        show ¬(str "HOST_FEE" = str "CONTRIBUTION") from by decide]
    have habr : classifyExpenseCategory (effectiveCategory tx)
        (lowerStr tx.description) = str "HOST_FEE" := by
      rw [hcat]
      simp [classifyExpenseCategory, h4, h5,
        show startsWithB (str "HOST_FEE") (str "Consultants") = false from by decide,
        show startsWithB (str "HOST_FEE") (str "Grants") = false from by decide,
        show startsWithB (str "HOST_FEE") (str "Other, Support & Commu") = false from by
          decide,
        show startsWithB (str "HOST_FEE") (str "Expenses - Donation") = false from by
          decide,
        show startsWithB (str "HOST_FEE") (str "Expenses - Travel") = false from by decide,
        show startsWithB (str "HOST_FEE") (str "Contributions - Hosted") = false from by
          decide,
        show ¬(str "HOST_FEE" = str "EXPENSE") from by decide,
        show ¬(str "HOST_FEE" = str "CONTRIBUTION") from by decide]
    constructor
    · simp [analyzeExpensesByCategoryFull, categoryStepFull, hrev, hcd, hfull,
        toSourceBreakdown, lookupA, setA, List.insertionSort, List.orderedInsert]
    · simp [analyzeExpensesByCategory, categoryStep, hrev, hcd, habr,
        toSourceBreakdown, lookupA, setA, List.insertionSort, List.orderedInsert]

/-- Claim C9 witness: the variants coincide on the demo list without
HOST_FEE transactions, and on the demo HOST_FEE transaction the full
variant produces OC Fees while the abridged variant keeps HOST_FEE. -/
theorem claim_C9_variant_equivalence_witness :
    analyzeExpensesByCategoryFull noHostFeeDemoTxs =
      analyzeExpensesByCategory noHostFeeDemoTxs ∧
    analyzeExpensesByCategoryFull [hostFeeTx] =
      [{ source := str "OC Fees", amount := round2 |hostFeeTx.amountSingleColumn|,
         count := 1 }] ∧
    analyzeExpensesByCategory [hostFeeTx] =
      [{ source := str "HOST_FEE", amount := round2 |hostFeeTx.amountSingleColumn|,
         count := 1 }] := by
  have h2 := claim_C9_variant_equivalence.2 hostFeeTx (by decide) (by decide) (by decide)
    (by decide) (by decide)
  exact ⟨claim_C9_variant_equivalence.1 noHostFeeDemoTxs (by decide), h2.1, h2.2⟩

/-- Claim C10: analyzeContributions satisfies the roll-up invariant on
both sides: each side's count is the sum of its contributors' counts and
each side's amount is the 2-decimal rounding of the sum of its
contributors' amounts. -/
theorem claim_C10_rollup (txs : List Transaction) :
    (analyzeContributions txs).recurring.count =
      (((analyzeContributions txs).recurring.contributors).map SourceBreakdown.count).sum ∧
    (analyzeContributions txs).recurring.amount =
      round2 ((((analyzeContributions txs).recurring.contributors).map
        SourceBreakdown.amount).sum) ∧
    (analyzeContributions txs).oneTime.count =
      (((analyzeContributions txs).oneTime.contributors).map SourceBreakdown.count).sum ∧
    (analyzeContributions txs).oneTime.amount =
      round2 ((((analyzeContributions txs).oneTime.contributors).map
        SourceBreakdown.amount).sum) := by
  simp only [analyzeContributions]
  exact ⟨sumCount_eq _, by rw [sumAmount_eq], sumCount_eq _, by rw [sumAmount_eq]⟩

end OCA
